import Mathlib

set_option maxRecDepth 100000

/-!
# Verification of the vistrace strace-line parser and streaming pipeline

This file is a shallow embedding of `src/strace.rs` from the vistrace
repository.  The Rust parser works over `text.as_bytes()` with a byte
cursor (`index : usize`); each byte is read back with `self.bytes[i] as char`,
i.e. a byte `b` is viewed as the Unicode code point `U+00bb`.  We therefore
model the input as `List Nat` (the byte values) and translate each `consume_*`
method into a function `List Nat → Nat → Except ParseErr (α × Nat)` that
returns the parsed value together with the new cursor position.  `i64`
arithmetic is modelled on `Int` with explicit twos-complement wrapping at
width 64 (`wrap64`), matching release-build Rust semantics.

Loops whose body advances the cursor on every iteration are translated into
well-founded recursion on `bytes.length - i`.  The mutually recursive value
grammar (`consume_arg` / `consume_arg_list` / `consume_struct` /
`consume_array` and the argument loop of `parse`) is translated with an
explicit fuel parameter; the extra error `ParseErr.outOfFuel` marks fuel
exhaustion and is proved unreachable for the fuel budget used by
`parse_syscall`.
-/

/-! ## Character classification (Rust `char` predicates applied to a byte cast to `char`) -/

/-- Rust `char::is_ascii_whitespace`: space, tab, newline, form feed, carriage return. -/
def is_ascii_whitespace (c : Nat) : Bool :=
  c = 32 || c = 9 || c = 10 || c = 12 || c = 13

/-- Rust `char::is_ascii_digit`. -/
def is_ascii_digit (c : Nat) : Bool :=
  48 ≤ c && c ≤ 57

/-- Rust `char::is_ascii_alphabetic`. -/
def is_ascii_alphabetic (c : Nat) : Bool :=
  (65 ≤ c && c ≤ 90) || (97 ≤ c && c ≤ 122)

/-- Rust `char::is_alphabetic` (Unicode `Alphabetic`) restricted to code points
below 0x100, which are the only values a byte cast to `char` can take. -/
def rust_is_alphabetic (c : Nat) : Bool :=
  is_ascii_alphabetic c || c = 0xAA || c = 0xB5 || c = 0xBA ||
  (0xC0 ≤ c && c ≤ 0xD6) || (0xD8 ≤ c && c ≤ 0xF6) || (0xF8 ≤ c && c ≤ 0xFF)

/-- Rust `char::is_alphanumeric` (= `is_alphabetic || is_numeric`) restricted to
code points below 0x100: the Latin-1 numeric characters are `0`-`9`,
superscripts ¹²³ and the vulgar fractions ¼½¾. -/
def rust_is_alphanumeric (c : Nat) : Bool :=
  rust_is_alphabetic c || is_ascii_digit c || c = 0xB2 || c = 0xB3 || c = 0xB9 ||
  (0xBC ≤ c && c ≤ 0xBE)

/-! ## UTF-8 validity (Rust `std::str::from_utf8`) -/

/-- A UTF-8 continuation byte. -/
def utf8_cont (c : Nat) : Bool := 0x80 ≤ c && c ≤ 0xBF

/-- Validity of a byte sequence as UTF-8, exactly as checked by Rust
`std::str::from_utf8` (shortest-form encodings, no surrogates, max U+10FFFF). -/
def utf8_valid : List Nat → Bool
  | [] => true
  | b :: rest =>
    if b ≤ 0x7F then utf8_valid rest
    else if 0xC2 ≤ b && b ≤ 0xDF then
      match rest with
      | c1 :: r => utf8_cont c1 && utf8_valid r
      | [] => false
    else if b = 0xE0 then
      match rest with
      | c1 :: c2 :: r => (0xA0 ≤ c1 && c1 ≤ 0xBF) && utf8_cont c2 && utf8_valid r
      | _ => false
    else if (0xE1 ≤ b && b ≤ 0xEC) || (0xEE ≤ b && b ≤ 0xEF) then
      match rest with
      | c1 :: c2 :: r => utf8_cont c1 && utf8_cont c2 && utf8_valid r
      | _ => false
    else if b = 0xED then
      match rest with
      | c1 :: c2 :: r => (0x80 ≤ c1 && c1 ≤ 0x9F) && utf8_cont c2 && utf8_valid r
      | _ => false
    else if b = 0xF0 then
      match rest with
      | c1 :: c2 :: c3 :: r =>
        (0x90 ≤ c1 && c1 ≤ 0xBF) && utf8_cont c2 && utf8_cont c3 && utf8_valid r
      | _ => false
    else if 0xF1 ≤ b && b ≤ 0xF3 then
      match rest with
      | c1 :: c2 :: c3 :: r => utf8_cont c1 && utf8_cont c2 && utf8_cont c3 && utf8_valid r
      | _ => false
    else if b = 0xF4 then
      match rest with
      | c1 :: c2 :: c3 :: r =>
        (0x80 ≤ c1 && c1 ≤ 0x8F) && utf8_cont c2 && utf8_cont c3 && utf8_valid r
      | _ => false
    else false

/-! ## 64-bit twos-complement wrapping -/

/-- Wrap an integer into the range of `i64` (release-build Rust overflow
semantics for `*` and `+` on `i64`). -/
def wrap64 (x : Int) : Int := (x + 2 ^ 63) % 2 ^ 64 - 2 ^ 63

/-! ## Data model (`Message`, `Syscall`, `SyscallArg`, `SyscallArgValue`, `FlagSetValue`)

Rust `String` values (syscall names, symbols, quoted text, struct keys) are
represented by their byte lists (`List Nat`); `std::str::from_utf8` failures
are modelled by the `utf8Error` parse error exactly where the source checks
them.  The `HashMap<String, SyscallArg>` of a struct is modelled as an
association list with `insert_assoc` implementing `HashMap::insert`
(replace the value when the key is present, add the entry otherwise). -/

inductive FlagSetValue where
  | symbol (s : List Nat)
  | bits (x : Int)
  deriving DecidableEq

mutual
inductive SyscallArgValue where
  | quoted (text : List Nat) (truncated : Bool)
  | symbol (s : List Nat)
  | flagSet (flags : List FlagSetValue)
  | number (x : Int)
  | product (x y : Int)
  | array (elems : List SyscallArg)
  | struct (fields : List (List Nat × SyscallArg))
  | functionCall (fname : List Nat) (args : List SyscallArg)

inductive SyscallArg where
  | mk (name : List Nat) (value : SyscallArgValue)
end

/-- Field accessor for `SyscallArg.name`. -/
def SyscallArg.name : SyscallArg → List Nat
  | .mk n _ => n

/-- Field accessor for `SyscallArg.value`. -/
def SyscallArg.value : SyscallArg → SyscallArgValue
  | .mk _ v => v

/-- The parse errors produced by `SyscallParser` (each constructor stands for
one `anyhow!` message in the source, plus `utf8Error` for a propagated
`std::str::from_utf8` failure).  `outOfFuel` does not correspond to any source
error: it is the sentinel for fuel exhaustion of the embedding and is proved
unreachable. -/
inductive ParseErr where
  | expectedName
  | eof
  | expectedGot (expected actual : Nat)
  | couldNotParseArg
  | expectedArgAfterEq
  | structFieldMissingValue (field : List Nat)
  | utf8Error
  | outOfFuel
  deriving DecidableEq

/-- Embedding of `SyscallErrorDetails`: `message` keeps the structured parse error (the
source stores its rendered string `e.to_string()`); `fulltext` is the original
input line. -/
structure SyscallErrorDetails where
  message : ParseErr
  fulltext : List Nat
  deriving DecidableEq

structure Syscall where
  name : List Nat
  args : List SyscallArg
  return_value : Int
  error_details : Option SyscallErrorDetails

/-! ## Primitive cursor operations -/

/-- The byte slice `bytes[a..b]`. -/
def byte_slice (bs : List Nat) (a b : Nat) : List Nat := (bs.drop a).take (b - a)

/-- Embedding of `SyscallParser::read` (`None` at end of input, otherwise the byte at the
cursor). -/
def read_byte (bs : List Nat) (i : Nat) : Option Nat := bs.get? i

/-- Embedding of `SyscallParser::starts_with`: the remaining input has at least
`p.length` bytes and they begin with `p`. -/
def matches_at (bs : List Nat) (i : Nat) (p : List Nat) : Bool :=
  decide (p.length ≤ bs.length - i) && (byte_slice bs i (i + p.length) == p)

/-- Embedding of `SyscallParser::skip`: advance over one occurrence of `c` if present. -/
def skip_char (bs : List Nat) (c : Nat) (i : Nat) : Nat :=
  if read_byte bs i = some c then i + 1 else i

/-- Embedding of `SyscallParser::require`: consume exactly the expected byte or fail. -/
def require (bs : List Nat) (c : Nat) (i : Nat) : Except ParseErr Nat :=
  match read_byte bs i with
  | none => .error .eof
  | some a => if a = c then .ok (i + 1) else .error (.expectedGot c a)

/-- The loop of `SyscallParser::whitespace`, expressed on the remaining input:
the number of leading ASCII-whitespace bytes (the loop advances once per such
byte and stops at the first other byte or at end of input). -/
def ws_count : List Nat → Nat
  | [] => 0
  | c :: r => if is_ascii_whitespace c then ws_count r + 1 else 0

/-- Embedding of `SyscallParser::whitespace`. -/
def whitespace (bs : List Nat) (i : Nat) : Nat := i + ws_count (bs.drop i)

/-- The inner loop of `SyscallParser::comments`, expressed on the remaining
input: the number of bytes the cursor moves while scanning for `*/` (the loop
consumes the closing `*/` and otherwise advances one byte until end of
input). -/
def comment_close : List Nat → Nat
  | [] => 0
  | c :: r => if c = 42 ∧ r.head? = some 47 then 2 else comment_close r + 1

/-- Embedding of `SyscallParser::comments`: skip one `/* ... */` comment if present. -/
def comments (bs : List Nat) (i : Nat) : Nat :=
  if read_byte bs i = some 47 ∧ read_byte bs (i + 1) = some 42 then
    i + 2 + comment_close (bs.drop (i + 2))
  else i

/-- Embedding of `SyscallParser::whitespace_comments`. -/
def whitespace_comments (bs : List Nat) (i : Nat) : Nat :=
  whitespace bs (comments bs (whitespace bs i))

/-! ## `consume_symbol` -/

/-- The continuation part of the `SyscallParser::consume_symbol` loop,
expressed on the remaining input: the number of bytes that continue a symbol
(alphanumeric or `_`). -/
def sym_count : List Nat → Nat
  | [] => 0
  | c :: r => if rust_is_alphanumeric c || c = 95 then sym_count r + 1 else 0

/-- The loop of `SyscallParser::consume_symbol`, returning the end index of
the symbol: at end of input the (empty) symbol ends at once; otherwise the
first character must be alphabetic and the symbol extends while the following
characters are alphanumeric or `_`. -/
def consume_symbol_end (bs : List Nat) (i : Nat) : Except ParseErr Nat :=
  match read_byte bs i with
  | none => .ok i
  | some c =>
    if rust_is_alphabetic c then .ok (i + 1 + sym_count (bs.drop (i + 1)))
    else .error .expectedName

/-- Embedding of `SyscallParser::consume_symbol`: the scanned bytes plus the
`std::str::from_utf8` validity check. -/
def consume_symbol (bs : List Nat) (i : Nat) : Except ParseErr (List Nat × Nat) :=
  match consume_symbol_end bs i with
  | .error e => .error e
  | .ok j =>
    if utf8_valid (byte_slice bs i j) then .ok (byte_slice bs i j, j) else .error .utf8Error

/-! ## `consume_i64` -/

/-- Rust `char::to_digit`. -/
def to_digit (radix c : Nat) : Option Nat :=
  let d : Option Nat :=
    if 48 ≤ c ∧ c ≤ 57 then some (c - 48)
    else if 97 ≤ c ∧ c ≤ 122 then some (c - 97 + 10)
    else if 65 ≤ c ∧ c ≤ 90 then some (c - 65 + 10)
    else none
  match d with
  | some v => if v < radix then some v else none
  | none => none

/-- Embedding of `SyscallParser::consume_optional_i64_prefix` (renamed): returns the radix
and the cursor after the consumed prefix: `0x` selects 16, `0` followed by
another ASCII digit selects 8, otherwise 10. -/
def consume_optional_i64_base (bs : List Nat) (i : Nat) : Nat × Nat :=
  match read_byte bs i, read_byte bs (i + 1) with
  | some 48, some 120 => (16, i + 2)
  | some 48, some c => if is_ascii_digit c then (8, i + 1) else (10, i)
  | _, _ => (10, i)

/-- The digit-accumulation loop of `SyscallParser::consume_i64`
(`r *= radix; r += v`, both wrapping on `i64`), expressed on the remaining
input: returns the accumulated value and the number of digits consumed. -/
def digits_run (radix : Nat) : List Nat → Int → Int × Nat
  | [], r => (r, 0)
  | c :: rest, r =>
    match to_digit radix c with
    | some v =>
      let p := digits_run radix rest (wrap64 (wrap64 (r * (radix : Int)) + (v : Int)))
      (p.1, p.2 + 1)
    | none => (r, 0)

/-- The digit loop positioned at cursor `i`. -/
def consume_i64_digits (bs : List Nat) (radix : Nat) (i : Nat) (r : Int) : Int × Nat :=
  let p := digits_run radix (bs.drop i) r
  (p.1, i + p.2)

/-- Embedding of `SyscallParser::consume_i64`: optional `-` sign, optional radix prefix,
then any number of digits (possibly none, yielding 0). -/
def consume_i64 (bs : List Nat) (i : Nat) : Except ParseErr (Int × Nat) :=
  let si : Int × Nat := if read_byte bs i = some 45 then (-1, i + 1) else (1, i)
  let rb := consume_optional_i64_base bs si.2
  let d := consume_i64_digits bs rb.1 rb.2 0
  .ok (wrap64 (si.1 * d.1), d.2)

/-! ## `consume_quoted` -/

/-- The scanning loop of `SyscallParser::consume_quoted`, expressed on the
remaining input: the offset of the closing quote, or `none` if the scan runs
off the end of the input.  A backslash skips the following byte (so that byte
cannot terminate the string); nothing is decoded.  A backslash as the final
byte jumps the cursor past the end, where the next read fails. -/
def quote_scan : List Nat → Option Nat
  | [] => none
  | c :: r =>
    if c = 34 then some 0
    else if c = 92 then
      match r with
      | [] => none
      | _ :: r2 => (quote_scan r2).map (· + 2)
    else (quote_scan r).map (· + 1)

/-- The scanning loop positioned at cursor `i`: the index of the closing quote
and the cursor just past it. -/
def quoted_end (bs : List Nat) (i : Nat) : Except ParseErr (Nat × Nat) :=
  match quote_scan (bs.drop i) with
  | none => .error .eof
  | some off => .ok (i + off, i + off + 1)

/-- Embedding of `SyscallParser::consume_quoted`: the verbatim bytes between the quotes
(UTF-8 checked), and `truncated = true` exactly when a literal `...`
immediately follows the closing quote (the `...` is consumed and discarded). -/
def consume_quoted (bs : List Nat) (i : Nat) : Except ParseErr (List Nat × Bool × Nat) :=
  match require bs 34 i with
  | .error e => .error e
  | .ok i1 =>
    match quoted_end bs i1 with
    | .error e => .error e
    | .ok (qe, j) =>
      let td : Bool × Nat := if matches_at bs j [46, 46, 46] then (true, j + 3) else (false, j)
      if utf8_valid (byte_slice bs i1 qe) then .ok (byte_slice bs i1 qe, td.1, td.2)
      else .error .utf8Error

/-! ## `consume_flagset` -/

/-- The body of one iteration of the `consume_flagset` loop: a numeric
alternative if the byte at the cursor is an ASCII digit, otherwise a symbol. -/
def flag_step (bs : List Nat) (i : Nat) (c : Nat) : Except ParseErr (FlagSetValue × Nat) :=
  if is_ascii_digit c then
    match consume_i64 bs i with
    | .error e => .error e
    | .ok (x, j) => .ok (.bits x, j)
  else
    match consume_symbol bs i with
    | .error e => .error e
    | .ok (s, j) => .ok (.symbol s, j)

/-- The loop of `SyscallParser::consume_flagset`: after each alternative,
continue exactly when the next byte is `|` (consuming it); stop otherwise or
at end of input.  The loop advances the cursor on every iteration; the fuel
supplied by `consume_flagset` is proved sufficient. -/
def consume_flagset_loop (bs : List Nat) :
    Nat → Nat → List FlagSetValue → Except ParseErr (List FlagSetValue × Nat)
  | 0, _, _ => .error .outOfFuel
  | fuel + 1, i, acc =>
    match read_byte bs i with
    | none => .ok (acc, i)
    | some c =>
      match flag_step bs i c with
      | .error e => .error e
      | .ok (v, j) =>
        if read_byte bs j = some 124 then consume_flagset_loop bs fuel (j + 1) (acc ++ [v])
        else .ok (acc ++ [v], j)

/-- Embedding of `SyscallParser::consume_flagset` (the leading symbol was already consumed
by the caller): consume the `|` and then the remaining alternatives. -/
def consume_flagset (bs : List Nat) (i : Nat) (first : List Nat) :
    Except ParseErr (List FlagSetValue × Nat) :=
  match require bs 124 i with
  | .error e => .error e
  | .ok i1 => consume_flagset_loop bs (bs.length + 1) i1 [.symbol first]

/-! ## Struct field maps (`HashMap<String, SyscallArg>`) -/

/-- Embedding of `HashMap::insert` on the association-list model: replace the value of an
existing key, otherwise append the new entry. -/
def insert_assoc (k : List Nat) (v : SyscallArg) :
    List (List Nat × SyscallArg) → List (List Nat × SyscallArg)
  | [] => [(k, v)]
  | (k', v') :: rest => if k' = k then (k, v) :: rest else (k', v') :: insert_assoc k v rest

/-- Embedding of `HashMap::get` on the association-list model. -/
def lookup_assoc (k : List Nat) : List (List Nat × SyscallArg) → Option SyscallArg
  | [] => none
  | (k', v) :: rest => if k' = k then some v else lookup_assoc k rest

/-! ## The mutually recursive value grammar -/

mutual
/-- Embedding of `SyscallParser::consume_arg`.  Skips whitespace/comments, one optional
comma, and whitespace/comments again, then dispatches on the first byte of the
value: `)` or end of input ends the argument list; an ASCII letter starts a
symbol which becomes a flag set (`|`), a named argument (`=`), a function call
(`(`) or a bare symbol; an ASCII digit or `-` starts an integer, possibly a
product (`*`); `"` a quoted string; `{` a struct; `[` an array; anything else
is an error. -/
def consume_arg (bs : List Nat) :
    Nat → Nat → Except ParseErr (Option SyscallArg × Nat)
  | 0, _ => .error .outOfFuel
  | fuel + 1, i =>
    let i1 := whitespace_comments bs (skip_char bs 44 (whitespace_comments bs i))
    match read_byte bs i1 with
    | none => .ok (none, i1)
    | some c =>
      if c = 41 then .ok (none, i1)
      else if is_ascii_alphabetic c then
        match consume_symbol bs i1 with
        | .error e => .error e
        | .ok (sym, i2) =>
          if read_byte bs i2 = some 124 then
            match consume_flagset bs i2 sym with
            | .error e => .error e
            | .ok (flags, j) => .ok (some (.mk [] (.flagSet flags)), j)
          else if read_byte bs i2 = some 61 then
            match consume_arg bs fuel (i2 + 1) with
            | .error e => .error e
            | .ok (none, _) => .error .expectedArgAfterEq
            | .ok (some a, j) => .ok (some (.mk sym a.value), j)
          else if read_byte bs i2 = some 40 then
            match consume_arg_list bs fuel (i2 + 1) with
            | .error e => .error e
            | .ok (args, j) =>
              match require bs 41 j with
              | .error e => .error e
              | .ok j2 => .ok (some (.mk [] (.functionCall sym args)), j2)
          else .ok (some (.mk [] (.symbol sym)), i2)
      else if is_ascii_digit c || c = 45 then
        match consume_i64 bs i1 with
        | .error e => .error e
        | .ok (x, i2) =>
          if read_byte bs i2 = some 42 then
            match consume_i64 bs (i2 + 1) with
            | .error e => .error e
            | .ok (y, j) => .ok (some (.mk [] (.product x y)), j)
          else .ok (some (.mk [] (.number x)), i2)
      else if c = 34 then
        match consume_quoted bs i1 with
        | .error e => .error e
        | .ok (t, tr, j) => .ok (some (.mk [] (.quoted t tr)), j)
      else if c = 123 then
        match consume_struct bs fuel i1 with
        | .error e => .error e
        | .ok (st, j) => .ok (some (.mk [] (.struct st)), j)
      else if c = 91 then
        match consume_array bs fuel i1 with
        | .error e => .error e
        | .ok (elems, j) => .ok (some (.mk [] (.array elems)), j)
      else .error .couldNotParseArg
  termination_by structural fuel => fuel

/-- The loop of `SyscallParser::consume_arg_list`: each iteration skips one
optional comma and whitespace/comments, stops at end of input or `]`, and
otherwise reads one argument, stopping when `consume_arg` reports the end of
the list. -/
def consume_arg_list (bs : List Nat) :
    Nat → Nat → Except ParseErr (List SyscallArg × Nat)
  | 0, _ => .error .outOfFuel
  | fuel + 1, i =>
    let i1 := whitespace_comments bs (skip_char bs 44 i)
    match read_byte bs i1 with
    | none => .ok ([], i1)
    | some c =>
      if c = 93 then .ok ([], i1)
      else
        match consume_arg bs fuel i1 with
        | .error e => .error e
        | .ok (none, j) => .ok ([], j)
        | .ok (some a, j) =>
          match consume_arg_list bs fuel j with
          | .error e => .error e
          | .ok (rest, j2) => .ok (a :: rest, j2)
  termination_by structural fuel => fuel

/-- The loop of `SyscallParser::consume_struct`: each iteration skips one
optional comma and whitespace/comments; a bare `...` ends the struct early
(consumed); end of input or a non-alphabetic byte ends the loop; otherwise a
`field = value` pair is read and inserted into the map. -/
def consume_struct_loop (bs : List Nat) :
    Nat → Nat → List (List Nat × SyscallArg) →
      Except ParseErr (List (List Nat × SyscallArg) × Nat)
  | 0, _, _ => .error .outOfFuel
  | fuel + 1, i, acc =>
    let i1 := whitespace_comments bs (skip_char bs 44 i)
    if matches_at bs i1 [46, 46, 46] then .ok (acc, i1 + 3)
    else
      match read_byte bs i1 with
      | none => .ok (acc, i1)
      | some c =>
        if rust_is_alphabetic c = false then .ok (acc, i1)
        else
          match consume_symbol bs i1 with
          | .error e => .error e
          | .ok (field, i2) =>
            match require bs 61 i2 with
            | .error e => .error e
            | .ok i3 =>
              match consume_arg bs fuel i3 with
              | .error e => .error e
              | .ok (none, _) => .error (.structFieldMissingValue field)
              | .ok (some v, j) => consume_struct_loop bs fuel j (insert_assoc field v acc)
  termination_by structural fuel => fuel

/-- Embedding of `SyscallParser::consume_struct`: `{`, the field loop, then `}`. -/
def consume_struct (bs : List Nat) :
    Nat → Nat → Except ParseErr (List (List Nat × SyscallArg) × Nat)
  | 0, _ => .error .outOfFuel
  | fuel + 1, i =>
    match require bs 123 i with
    | .error e => .error e
    | .ok i1 =>
      match consume_struct_loop bs fuel i1 [] with
      | .error e => .error e
      | .ok (fields, j) =>
        match require bs 125 j with
        | .error e => .error e
        | .ok j2 => .ok (fields, j2)
  termination_by structural fuel => fuel

/-- Embedding of `SyscallParser::consume_array`: `[`, an argument list, then `]`. -/
def consume_array (bs : List Nat) :
    Nat → Nat → Except ParseErr (List SyscallArg × Nat)
  | 0, _ => .error .outOfFuel
  | fuel + 1, i =>
    match require bs 91 i with
    | .error e => .error e
    | .ok i1 =>
      match consume_arg_list bs fuel i1 with
      | .error e => .error e
      | .ok (elems, j) =>
        match require bs 93 j with
        | .error e => .error e
        | .ok j2 => .ok (elems, j2)
  termination_by structural fuel => fuel

/-- The `while let Some(arg) = self.consume_arg()?` loop of
`SyscallParser::parse`, accumulating the argument vector. -/
def parse_args (bs : List Nat) :
    Nat → Nat → List SyscallArg → Except ParseErr (List SyscallArg × Nat)
  | 0, _, _ => .error .outOfFuel
  | fuel + 1, i, acc =>
    match consume_arg bs fuel i with
    | .error e => .error e
    | .ok (none, j) => .ok (acc, j)
    | .ok (some a, j) => parse_args bs fuel j (acc ++ [a])
  termination_by structural fuel => fuel
end

/-! ## `parse` and `parse_syscall` -/

/-- The part of `SyscallParser::parse` that runs after the syscall name has
been stored in `current_name`: `(`, the argument loop, `)`, whitespace and
comments, `=`, whitespace and comments, and the return value. -/
def parse_rest (bs : List Nat) (fuel : Nat) (name : List Nat) (i0 : Nat) :
    Except ParseErr Syscall :=
  match require bs 40 i0 with
  | .error e => .error e
  | .ok i1 =>
    match parse_args bs fuel i1 [] with
    | .error e => .error e
    | .ok (args, i2) =>
      match require bs 41 i2 with
      | .error e => .error e
      | .ok i3 =>
        match require bs 61 (whitespace_comments bs i3) with
        | .error e => .error e
        | .ok i5 =>
          match consume_i64 bs (whitespace_comments bs i5) with
          | .error e => .error e
          | .ok (rv, _) => .ok ⟨name, args, rv, none⟩

/-- Embedding of `SyscallParser::parse`.  The second component is the final value of
`current_name`: it is written exactly once, right after `consume_symbol`
succeeds, and is what `parse_syscall` reads back on failure. -/
def parse (bs : List Nat) (fuel : Nat) : Except ParseErr Syscall × List Nat :=
  match consume_symbol bs 0 with
  | .error e => (.error e, [])
  | .ok (name, i0) => (parse_rest bs fuel name i0, name)

/-- The fuel budget used for a line of `bs.length` bytes; proved sufficient
(`parse` never returns `ParseErr.outOfFuel` with this budget). -/
def parse_fuel (bs : List Nat) : Nat := 3 * (bs.length + 1) + 2

/-- Embedding of `parse_syscall`: a successful parse is returned as-is; any parse error is
caught and converted into a failure-bearing record carrying the best-effort
name, no arguments, a zero return value and the original line. -/
def parse_syscall (bs : List Nat) : Syscall :=
  match parse bs (parse_fuel bs) with
  | (.ok r, _) => r
  | (.error e, name) => ⟨name, [], 0, some ⟨e, bs⟩⟩

/-! ## The streaming pipeline (`strace`)

The producer loop of `strace` reads the tracer diagnostic stream line by
line; a line starting with `+++` (exit notice) or `---` (signal notice) is
dropped, and every other line is parsed and sent over the channel, in input
order.  After the stream ends the child is reaped and a non-zero exit status
becomes an error, returned after the loop (and hence after every message has
been sent and the sender has been released).  We model a complete run by the
list of lines read and a flag for `exit_result.success()`, producing the
ordered list of observable events; I/O failures (spawn, read, send) abort the
whole run before the lines exist and are outside this model. -/

inductive Message where
  | syscall (s : Syscall)

/-- One observable event of the producer: a message sent on the channel, the
release of the channel sender when `strace` returns, or the producer
result. -/
inductive StraceEvent where
  | send (m : Message)
  | close
  | ret (r : Except String Unit)

/-- The messages sent by the producer loop of `strace`, in order: one per
non-filtered line, none for filtered lines. -/
def strace_messages : List (List Nat) → List Message
  | [] => []
  | l :: rest =>
    if matches_at l 0 [43, 43, 43] || matches_at l 0 [45, 45, 45] then strace_messages rest
    else .syscall (parse_syscall l) :: strace_messages rest

/-- The full event trace of one run of `strace` on the given diagnostic lines,
with `ok` the value of `exit_result.success()`. -/
def strace_run : List (List Nat) → Bool → List StraceEvent
  | [], ok =>
    [.close, .ret (if ok then .ok () else .error "strace returned a non-zero exit code")]
  | l :: rest, ok =>
    if matches_at l 0 [43, 43, 43] || matches_at l 0 [45, 45, 45] then strace_run rest ok
    else .send (.syscall (parse_syscall l)) :: strace_run rest ok

/-! ## Concrete test lines

`ascii` turns a Lean string literal into its byte list (all test lines are
ASCII, so this is exactly `str::as_bytes`).  The `example`s below replay the
unit tests of `strace.rs` against the embedding. -/

def ascii (s : String) : List Nat := s.data.map Char.toNat

deriving instance DecidableEq for Except

/-- Probe: the payload of a `number` value. -/
def SyscallArgValue.as_number : SyscallArgValue → Option Int
  | .number x => some x
  | _ => none

/-- Probe: the payload of a `product` value. -/
def SyscallArgValue.as_product : SyscallArgValue → Option (Int × Int)
  | .product x y => some (x, y)
  | _ => none

/-- Probe: the payload of a `symbol` value. -/
def SyscallArgValue.as_symbol : SyscallArgValue → Option (List Nat)
  | .symbol s => some s
  | _ => none

/-- Probe: the payload of a `quoted` value. -/
def SyscallArgValue.as_quoted : SyscallArgValue → Option (List Nat × Bool)
  | .quoted t tr => some (t, tr)
  | _ => none

/-- Probe: the payload of a `flagSet` value. -/
def SyscallArgValue.as_flagset : SyscallArgValue → Option (List FlagSetValue)
  | .flagSet fs => some fs
  | _ => none

/-- Probe: the payload of an `array` value. -/
def SyscallArgValue.as_array : SyscallArgValue → Option (List SyscallArg)
  | .array l => some l
  | _ => none

/-- Probe: the payload of a `struct` value. -/
def SyscallArgValue.as_struct : SyscallArgValue → Option (List (List Nat × SyscallArg))
  | .struct m => some m
  | _ => none

/-- Probe: the payload of a `functionCall` value. -/
def SyscallArgValue.as_call : SyscallArgValue → Option (List Nat × List SyscallArg)
  | .functionCall n a => some (n, a)
  | _ => none

/-- The value of argument `n` of the record parsed from `bs`. -/
def arg_value (bs : List Nat) (n : Nat) : Option SyscallArgValue :=
  ((parse_syscall bs).args.get? n).map SyscallArg.value

/-- The field name of argument `n` of the record parsed from `bs`. -/
def arg_name (bs : List Nat) (n : Nat) : Option (List Nat) :=
  ((parse_syscall bs).args.get? n).map SyscallArg.name

/-! ## Predicates used by the verification -/

/-- Well-formedness of the region between the two quotes of a quoted value, as
the scanner traverses it: no unescaped `"` occurs inside, and a backslash is
always followed by another byte (which it escapes), so the scanner stops
exactly at the closing quote. -/
def quoted_body : List Nat → Bool
  | [] => true
  | c :: r =>
    if c = 34 then false
    else if c = 92 then
      match r with
      | [] => false
      | _ :: r2 => quoted_body r2
    else quoted_body r

/-- The invariant of a `consume_arg` result: no fuel exhaustion; on success the
cursor does not retreat, stays within the input, and advances strictly when an
argument was produced. -/
def ArgOut (bs : List Nat) (i : Nat) : Except ParseErr (Option SyscallArg × Nat) → Prop
  | .error e => e ≠ .outOfFuel
  | .ok (a, j) => i ≤ j ∧ j ≤ bs.length ∧ (a = none ∨ i + 1 ≤ j)

/-- The invariant of a list/struct-loop/argument-loop result: no fuel
exhaustion; on success the cursor does not retreat and stays within the
input. -/
def SeqOut {α : Type} (bs : List Nat) (i : Nat) : Except ParseErr (α × Nat) → Prop
  | .error e => e ≠ .outOfFuel
  | .ok (_, j) => i ≤ j ∧ j ≤ bs.length

/-- The invariant of a `consume_struct`/`consume_array` result: as `SeqOut`,
with strict cursor advance on success. -/
def StrictOut {α : Type} (bs : List Nat) (i : Nat) : Except ParseErr (α × Nat) → Prop
  | .error e => e ≠ .outOfFuel
  | .ok (_, j) => i + 1 ≤ j ∧ j ≤ bs.length

/-- Probe used to discharge hypotheses about a failing `parse` run with
decidable data only (no equality on `Syscall` is needed). -/
def err_probe (p : Except ParseErr Syscall × List Nat) : Option (ParseErr × List Nat) :=
  match p with
  | (.error e, nm) => some (e, nm)
  | _ => none


/-! `test_syscall_parse` from `strace.rs`, replayed against the embedding. -/

example : (parse_syscall (ascii "close(3) = 0")).name = ascii "close" := by decide
example : (parse_syscall (ascii "close(3) = 0")).args.length = 1 := by decide
example : (arg_value (ascii "close(3) = 0") 0).bind SyscallArgValue.as_number = some 3 := by
  decide
example : (parse_syscall (ascii "close(3) = 0")).return_value = 0 := by decide
example : (parse_syscall (ascii "close(3) = 0")).error_details.isNone = true := by decide

example :
    let l := ascii "openat(AT_FDCWD, \"/proc/self/mountinfo\", O_RDONLY|O_CLOEXEC) = 3"
    (parse_syscall l).name = ascii "openat" ∧
    (parse_syscall l).args.length = 3 ∧
    (arg_value l 0).bind SyscallArgValue.as_symbol = some (ascii "AT_FDCWD") ∧
    (arg_value l 1).bind SyscallArgValue.as_quoted = some (ascii "/proc/self/mountinfo", false) ∧
    (arg_value l 2).bind SyscallArgValue.as_flagset =
      some [.symbol (ascii "O_RDONLY"), .symbol (ascii "O_CLOEXEC")] ∧
    (parse_syscall l).return_value = 3 := by decide

example :
    let l := ascii "read(3, \"# Locale name alias data base.\\n#\"..., 4096) = 2996"
    (parse_syscall l).name = ascii "read" ∧
    (arg_value l 1).bind SyscallArgValue.as_quoted =
      some (ascii "# Locale name alias data base.\\n#", true) ∧
    (arg_value l 2).bind SyscallArgValue.as_number = some 4096 ∧
    (parse_syscall l).return_value = 2996 := by decide

example :
    let l := ascii "fstat(1, \x7bst_mode=S_IFIFO|0600, st_size=0, ...\x7d) = 0\n"
    (parse_syscall l).name = ascii "fstat" ∧
    (parse_syscall l).args.length = 2 ∧
    (arg_value l 0).bind SyscallArgValue.as_number = some 1 ∧
    ((arg_value l 1).bind SyscallArgValue.as_struct).map List.length = some 2 ∧
    ((((arg_value l 1).bind SyscallArgValue.as_struct).bind
        (lookup_assoc (ascii "st_mode"))).map SyscallArg.value).bind
        SyscallArgValue.as_flagset =
      some [.symbol (ascii "S_IFIFO"), .bits 384] ∧
    ((((arg_value l 1).bind SyscallArgValue.as_struct).bind
        (lookup_assoc (ascii "st_size"))).map SyscallArg.value).bind
        SyscallArgValue.as_number = some 0 ∧
    (parse_syscall l).return_value = 0 := by decide

example :
    let l := ascii "getdents64(3, 0xba02287ca030 /* 9 entries */, 32768) = 280"
    (parse_syscall l).args.length = 3 ∧
    (arg_value l 1).bind SyscallArgValue.as_number = some 0xba02287ca030 ∧
    (arg_value l 2).bind SyscallArgValue.as_number = some 32768 := by decide

example :
    let l := ascii "clone(child_stack=NULL, flags=CLONE_CHILD_CLEARTID|CLONE_CHILD_SETTID|SIGCHLD, child_tidptr=0xef6aae8510f0) = 2077145"
    (parse_syscall l).args.length = 3 ∧
    (arg_value l 0).bind SyscallArgValue.as_symbol = some (ascii "NULL") ∧
    arg_name l 0 = some (ascii "child_stack") ∧
    (arg_value l 1).bind SyscallArgValue.as_flagset =
      some [.symbol (ascii "CLONE_CHILD_CLEARTID"), .symbol (ascii "CLONE_CHILD_SETTID"),
            .symbol (ascii "SIGCHLD")] ∧
    arg_name l 1 = some (ascii "flags") ∧
    (arg_value l 2).bind SyscallArgValue.as_number = some 0xef6aae8510f0 ∧
    arg_name l 2 = some (ascii "child_tidptr") := by decide

example :
    let l := ascii "fstat(2, \x7bst_mode=S_IFCHR|0666, st_rdev=makedev(0x1, 0x3), ...\x7d) = 0"
    (parse_syscall l).args.length = 2 ∧
    ((((arg_value l 1).bind SyscallArgValue.as_struct).bind
        (lookup_assoc (ascii "st_mode"))).map SyscallArg.value).bind
        SyscallArgValue.as_flagset =
      some [.symbol (ascii "S_IFCHR"), .bits 438] ∧
    (((((arg_value l 1).bind SyscallArgValue.as_struct).bind
        (lookup_assoc (ascii "st_rdev"))).map SyscallArg.value).bind
        SyscallArgValue.as_call).map
        (fun c => (c.1, c.2.map (fun a => SyscallArgValue.as_number a.value))) =
      some (ascii "makedev", [some 1, some 3]) := by decide

/-! `test_syscall_parse_partial` -/

example :
    (parse_syscall (ascii "write(")).name = ascii "write" ∧
    (parse_syscall (ascii "write(")).error_details.isSome = true := by decide

/-! `test_consume_symbol`, `test_consume_arg`, `test_consume_i64`,
`test_consume_quoted`, `test_advance_whitespace` -/

example : consume_symbol (ascii "read") 0 = .ok (ascii "read", 4) := by decide
example : consume_symbol (ascii "syscall_whatever(") 0 =
    .ok (ascii "syscall_whatever", 16) := by decide
example : consume_symbol (ascii "123") 0 = .error .expectedName := by decide
example : consume_i64 (ascii "123") 0 = .ok (123, 3) := by decide
example : consume_i64 (ascii "-0xfF abc") 0 = .ok (-255, 5) := by decide
example : consume_i64 (ascii "0600") 0 = .ok (384, 4) := by decide
example : consume_i64 (ascii "0") 0 = .ok (0, 1) := by decide
example : consume_quoted (ascii "\"hello\"") 0 = .ok (ascii "hello", false, 7) := by decide
example : consume_quoted (ascii "\"\"...") 0 = .ok ([], true, 5) := by decide
example : whitespace_comments (ascii "  /* one comment */   ab    ") 0 = 22 := by decide

example :
    let l := ascii "execve(\"/usr/bin/echo\", [\"echo\", \"hello\", \"world\"], 0xffffc98f1ef0 /* 61 vars */) = 0\n"
    (parse_syscall l).args.length = 3 ∧
    (arg_value l 0).bind SyscallArgValue.as_quoted = some (ascii "/usr/bin/echo", false) ∧
    ((arg_value l 1).bind SyscallArgValue.as_array).map
      (List.map (fun a => SyscallArgValue.as_quoted a.value)) =
      some [some (ascii "echo", false), some (ascii "hello", false), some (ascii "world", false)] ∧
    (arg_value l 2).bind SyscallArgValue.as_number = some 0xffffc98f1ef0 ∧
    (parse_syscall l).return_value = 0 := by decide

example :
    let p := ascii "O_RDONLY, 123, \"hello\", 1024*3"
    (consume_arg p 40 0).map
        (fun r => ((r.1.map SyscallArg.value).bind SyscallArgValue.as_symbol, r.2)) =
      .ok (some (ascii "O_RDONLY"), 8) ∧
    (consume_arg p 40 8).map
        (fun r => ((r.1.map SyscallArg.value).bind SyscallArgValue.as_number, r.2)) =
      .ok (some 123, 13) ∧
    (consume_arg p 40 13).map
        (fun r => ((r.1.map SyscallArg.value).bind SyscallArgValue.as_quoted, r.2)) =
      .ok (some (ascii "hello", false), 22) ∧
    (consume_arg p 40 22).map
        (fun r => ((r.1.map SyscallArg.value).bind SyscallArgValue.as_product, r.2)) =
      .ok (some (1024, 3), 30) ∧
    (consume_arg p 40 30).map
        (fun r => ((r.1.map SyscallArg.value).bind SyscallArgValue.as_number, r.2)) =
      .ok (none, 30) := by decide

/-! ## Basic facts about the cursor primitives -/

/-- A successful `read` implies the cursor is within the input. -/
theorem read_byte_lt {bs : List Nat} {i c : Nat} (h : read_byte bs i = some c) :
    i < bs.length := by
  simp only [read_byte] at h
  exact (List.get?_eq_some.mp h).1

/-- Reading fails exactly at or past the end of the input. -/
theorem read_byte_eq_none {bs : List Nat} {i : Nat} :
    read_byte bs i = none ↔ bs.length ≤ i := by
  simp [read_byte, List.get?_eq_none]

theorem ws_count_le : ∀ l : List Nat, ws_count l ≤ l.length
  | [] => by simp [ws_count]
  | c :: r => by
    simp only [ws_count]
    split
    · have := ws_count_le r
      simp only [List.length_cons]
      omega
    · simp

theorem whitespace_ge (bs : List Nat) (i : Nat) : i ≤ whitespace bs i :=
  Nat.le_add_right _ _

theorem whitespace_le {bs : List Nat} {i : Nat} (hi : i ≤ bs.length) :
    whitespace bs i ≤ bs.length := by
  have h := ws_count_le (bs.drop i)
  simp only [List.length_drop] at h
  simp only [whitespace]
  omega

theorem comment_close_le : ∀ l : List Nat, comment_close l ≤ l.length
  | [] => by simp [comment_close]
  | c :: r => by
    simp only [comment_close]
    split
    · rename_i h
      rcases r with _ | ⟨x, r2⟩
      · simp [List.head?] at h
      · simp only [List.length_cons]
        omega
    · have := comment_close_le r
      simp only [List.length_cons]
      omega

theorem comments_ge (bs : List Nat) (i : Nat) : i ≤ comments bs i := by
  simp only [comments]
  split
  · omega
  · omega

theorem comments_le {bs : List Nat} {i : Nat} (hi : i ≤ bs.length) :
    comments bs i ≤ bs.length := by
  simp only [comments]
  split
  · rename_i h
    have h2 := read_byte_lt h.2
    have h3 := comment_close_le (bs.drop (i + 2))
    simp only [List.length_drop] at h3
    omega
  · exact hi

theorem whitespace_comments_ge (bs : List Nat) (i : Nat) : i ≤ whitespace_comments bs i := by
  have h1 := whitespace_ge bs i
  have h2 := comments_ge bs (whitespace bs i)
  have h3 := whitespace_ge bs (comments bs (whitespace bs i))
  simp only [whitespace_comments]
  omega

theorem whitespace_comments_le {bs : List Nat} {i : Nat} (hi : i ≤ bs.length) :
    whitespace_comments bs i ≤ bs.length :=
  whitespace_le (comments_le (whitespace_le hi))

theorem skip_char_ge (bs : List Nat) (c i : Nat) : i ≤ skip_char bs c i := by
  simp only [skip_char]
  split <;> omega

theorem skip_char_le {bs : List Nat} {c i : Nat} (hi : i ≤ bs.length) :
    skip_char bs c i ≤ bs.length := by
  simp only [skip_char]
  split
  · rename_i h
    have := read_byte_lt h
    omega
  · exact hi

/-- The index reached by the comma/whitespace skipping at the top of
`consume_arg`. -/
theorem arg_skip_ge (bs : List Nat) (i : Nat) :
    i ≤ whitespace_comments bs (skip_char bs 44 (whitespace_comments bs i)) := by
  have h1 := whitespace_comments_ge bs i
  have h2 := skip_char_ge bs 44 (whitespace_comments bs i)
  have h3 := whitespace_comments_ge bs (skip_char bs 44 (whitespace_comments bs i))
  omega

theorem arg_skip_le {bs : List Nat} {i : Nat} (hi : i ≤ bs.length) :
    whitespace_comments bs (skip_char bs 44 (whitespace_comments bs i)) ≤ bs.length :=
  whitespace_comments_le (skip_char_le (whitespace_comments_le hi))

theorem list_skip_ge (bs : List Nat) (i : Nat) :
    i ≤ whitespace_comments bs (skip_char bs 44 i) := by
  have h1 := skip_char_ge bs 44 i
  have h2 := whitespace_comments_ge bs (skip_char bs 44 i)
  omega

theorem list_skip_le {bs : List Nat} {i : Nat} (hi : i ≤ bs.length) :
    whitespace_comments bs (skip_char bs 44 i) ≤ bs.length :=
  whitespace_comments_le (skip_char_le hi)

theorem require_ok {bs : List Nat} {c i j : Nat} (h : require bs c i = .ok j) :
    j = i + 1 ∧ i < bs.length := by
  simp only [require] at h
  split at h
  · exact Except.noConfusion h
  · rename_i a ha
    split at h
    · cases h
      exact ⟨rfl, read_byte_lt ha⟩
    · exact Except.noConfusion h

theorem require_err {bs : List Nat} {c i : Nat} {e : ParseErr}
    (h : require bs c i = .error e) : e ≠ .outOfFuel := by
  simp only [require] at h
  split at h
  · cases h
    simp
  · split at h
    · exact Except.noConfusion h
    · cases h
      simp

theorem matches_at_bound {bs : List Nat} {i : Nat} {p : List Nat}
    (h : matches_at bs i p = true) : i + p.length ≤ bs.length ∨ p = [] := by
  simp only [matches_at, Bool.and_eq_true, decide_eq_true_eq] at h
  rcases p with _ | ⟨x, r⟩
  · right
    rfl
  · left
    have := h.1
    simp only [List.length_cons] at this ⊢
    omega

/-! ## Facts about the leaf scanners -/

theorem sym_count_le : ∀ l : List Nat, sym_count l ≤ l.length
  | [] => by simp [sym_count]
  | c :: r => by
    simp only [sym_count]
    split
    · have := sym_count_le r
      simp only [List.length_cons]
      omega
    · simp

theorem consume_symbol_end_ok {bs : List Nat} {i j : Nat}
    (h : consume_symbol_end bs i = .ok j) :
    i ≤ j ∧ (i ≤ bs.length → j ≤ bs.length) ∧
      (∀ c, read_byte bs i = some c → i + 1 ≤ j) := by
  simp only [consume_symbol_end] at h
  split at h
  · rename_i hr
    cases h
    exact ⟨Nat.le_refl _, fun hi => hi, fun c hc => by rw [hr] at hc; cases hc⟩
  · rename_i c hr
    split at h
    · cases h
      have hlt := read_byte_lt hr
      have hs := sym_count_le (bs.drop (i + 1))
      simp only [List.length_drop] at hs
      exact ⟨by omega, fun _ => by omega, fun _ _ => by omega⟩
    · exact Except.noConfusion h

theorem consume_symbol_end_err {bs : List Nat} {i : Nat} {e : ParseErr}
    (h : consume_symbol_end bs i = .error e) : e = .expectedName := by
  simp only [consume_symbol_end] at h
  split at h
  · exact Except.noConfusion h
  · split at h
    · exact Except.noConfusion h
    · cases h
      rfl

theorem consume_symbol_ok {bs : List Nat} {i j : Nat} {s : List Nat}
    (h : consume_symbol bs i = .ok (s, j)) :
    i ≤ j ∧ (i ≤ bs.length → j ≤ bs.length) ∧
      (∀ c, read_byte bs i = some c → i + 1 ≤ j) := by
  simp only [consume_symbol] at h
  split at h
  · exact Except.noConfusion h
  · rename_i j0 he
    split at h
    · cases h
      exact consume_symbol_end_ok he
    · exact Except.noConfusion h

theorem consume_symbol_err {bs : List Nat} {i : Nat} {e : ParseErr}
    (h : consume_symbol bs i = .error e) : e ≠ .outOfFuel := by
  simp only [consume_symbol] at h
  split at h
  · rename_i he
    cases h
    rw [consume_symbol_end_err he]
    simp
  · split at h
    · exact Except.noConfusion h
    · cases h
      simp

theorem consume_optional_i64_base_ge (bs : List Nat) (i : Nat) :
    i ≤ (consume_optional_i64_base bs i).2 := by
  simp only [consume_optional_i64_base]
  split
  · simp
  · split <;> simp
  · simp

theorem consume_optional_i64_base_le {bs : List Nat} {i : Nat} (hi : i ≤ bs.length) :
    (consume_optional_i64_base bs i).2 ≤ bs.length := by
  simp only [consume_optional_i64_base]
  split
  · rename_i h1 h2
    have := read_byte_lt h2
    simpa using this
  · rename_i h1 h2
    have := read_byte_lt h1
    split
    · simpa using this
    · simpa using hi
  · simpa using hi

theorem digits_run_le (radix : Nat) : ∀ (l : List Nat) (r : Int),
    (digits_run radix l r).2 ≤ l.length
  | [], r => by simp [digits_run]
  | c :: rest, r => by
    simp only [digits_run]
    split
    · rename_i v hv
      have := digits_run_le radix rest (wrap64 (wrap64 (r * (radix : Int)) + (v : Int)))
      simp only [List.length_cons]
      omega
    · simp

theorem consume_i64_shape (bs : List Nat) (i : Nat) :
    ∃ v j, consume_i64 bs i = .ok (v, j) := by
  simp only [consume_i64]
  exact ⟨_, _, rfl⟩

theorem consume_i64_ok {bs : List Nat} {i j : Nat} {v : Int}
    (h : consume_i64 bs i = .ok (v, j)) :
    i ≤ j ∧ (i ≤ bs.length → j ≤ bs.length) := by
  simp only [consume_i64] at h
  cases h
  constructor
  · have h1 : i ≤ (if read_byte bs i = some 45 then ((-1 : Int), i + 1) else (1, i)).2 := by
      split <;> simp
    have h2 := consume_optional_i64_base_ge bs
      (if read_byte bs i = some 45 then ((-1 : Int), i + 1) else (1, i)).2
    have h3 := digits_run_le
      (consume_optional_i64_base bs
        (if read_byte bs i = some 45 then ((-1 : Int), i + 1) else (1, i)).2).1
      (bs.drop (consume_optional_i64_base bs
        (if read_byte bs i = some 45 then ((-1 : Int), i + 1) else (1, i)).2).2) 0
    simp only [consume_i64_digits]
    omega
  · intro hi
    have h1 : (if read_byte bs i = some 45 then ((-1 : Int), i + 1) else (1, i)).2 ≤
        bs.length := by
      split
      · rename_i hr
        have := read_byte_lt hr
        simpa using this
      · simpa using hi
    have h2 := consume_optional_i64_base_le h1
    have h3 := digits_run_le
      (consume_optional_i64_base bs
        (if read_byte bs i = some 45 then ((-1 : Int), i + 1) else (1, i)).2).1
      (bs.drop (consume_optional_i64_base bs
        (if read_byte bs i = some 45 then ((-1 : Int), i + 1) else (1, i)).2).2) 0
    simp only [List.length_drop] at h3
    simp only [consume_i64_digits]
    omega

theorem drop_eq_cons_of_read {bs : List Nat} {i c : Nat} (h : read_byte bs i = some c) :
    bs.drop i = c :: bs.drop (i + 1) := by
  have hlt := read_byte_lt h
  simp only [read_byte] at h
  obtain ⟨hl, hg⟩ := List.get?_eq_some.mp h
  rw [List.drop_eq_get_cons hl, hg]

theorem to_digit_digit {radix c : Nat} (h1 : 48 ≤ c) (h2 : c ≤ 57)
    (h3 : c - 48 < radix) : to_digit radix c = some (c - 48) := by
  simp only [to_digit]
  rw [if_pos ⟨h1, h2⟩]
  simp only []
  rw [if_pos h3]

theorem digits_head {radix c v : Nat} {t : List Nat} {r : Int}
    (h : to_digit radix c = some v) : 1 ≤ (digits_run radix (c :: t) r).2 := by
  simp only [digits_run]
  rw [h]
  simp

theorem cob_10_of_ne48 {bs : List Nat} {i c : Nat} (h0 : read_byte bs i = some c)
    (hc : c ≠ 48) : consume_optional_i64_base bs i = (10, i) := by
  simp only [consume_optional_i64_base]
  split
  · rename_i h1 h2
    rw [h0] at h1
    cases h1
    exact absurd rfl hc
  · rename_i h1 h2
    rw [h0] at h1
    cases h1
    exact absurd rfl hc
  · rfl

theorem consume_i64_progress {bs : List Nat} {i j : Nat} {v : Int} {c : Nat}
    (hc : read_byte bs i = some c) (hdig : is_ascii_digit c = true ∨ c = 45)
    (h : consume_i64 bs i = .ok (v, j)) : i + 1 ≤ j := by
  simp only [consume_i64] at h
  cases h
  by_cases h45 : read_byte bs i = some 45
  · rw [if_pos h45]
    have h1 := consume_optional_i64_base_ge bs (((-1 : Int), i + 1)).2
    simp only [consume_i64_digits]
    simp only [] at h1 ⊢
    omega
  · rw [if_neg h45]
    have hcne : c ≠ 45 := by
      intro hh
      rw [hh] at hc
      exact h45 hc
    have hdig2 : is_ascii_digit c = true := by
      rcases hdig with hd | hd
      · exact hd
      · exact absurd hd hcne
    simp only [is_ascii_digit, Bool.and_eq_true, decide_eq_true_eq] at hdig2
    simp only [consume_i64_digits]
    by_cases hc48 : c = 48
    · subst hc48
      rcases h2 : read_byte bs (i + 1) with _ | c2
      · have hcob : consume_optional_i64_base bs i = (10, i) := by
          simp only [consume_optional_i64_base]
          split
          · rename_i ha hb
            rw [h2] at hb
            cases hb
          · rename_i ha hb
            rw [h2] at hb
            cases hb
          · rfl
        rw [hcob]
        have := @digits_head 10 48 (48 - 48) (bs.drop (i + 1)) 0
          (@to_digit_digit 10 48 (by omega) (by omega) (by omega))
        rw [drop_eq_cons_of_read hc]
        simp only [] at this ⊢
        omega
      · by_cases h120 : c2 = 120
        · subst h120
          have hcob : consume_optional_i64_base bs i = (16, i + 2) := by
            simp only [consume_optional_i64_base]
            split
            · rfl
            · rename_i ha hb
              rw [h2] at hb
              cases hb
              rename_i hno
              exact absurd rfl hno
            · rename_i hno
              exact absurd h2 (by simpa using hno 120 hc)
          rw [hcob]
          have := digits_run_le 16 (bs.drop (i + 2)) 0
          omega
        · by_cases hd2 : is_ascii_digit c2 = true
          · have hcob : consume_optional_i64_base bs i = (8, i + 1) := by
              simp only [consume_optional_i64_base]
              split
              · rename_i ha hb
                rw [h2] at hb
                cases hb
                exact absurd rfl h120
              · rename_i ha hb
                rw [h2] at hb
                cases hb
                rw [if_pos hd2]
              · rename_i hno
                exact absurd h2 (by simpa using hno c2 hc)
            rw [hcob]
            have := digits_run_le 8 (bs.drop (i + 1)) 0
            omega
          · have hcob : consume_optional_i64_base bs i = (10, i) := by
              simp only [consume_optional_i64_base]
              split
              · rename_i ha hb
                rw [h2] at hb
                cases hb
                exact absurd rfl h120
              · rename_i ha hb
                rw [h2] at hb
                cases hb
                rw [if_neg hd2]
              · rename_i hno
                exact absurd h2 (by simpa using hno c2 hc)
            rw [hcob]
            have := @digits_head 10 48 (48 - 48) (bs.drop (i + 1)) 0
              (@to_digit_digit 10 48 (by omega) (by omega) (by omega))
            rw [drop_eq_cons_of_read hc]
            simp only [] at this ⊢
            omega
    · rw [cob_10_of_ne48 hc hc48]
      have := @digits_head 10 c (c - 48) (bs.drop (i + 1)) 0
        (@to_digit_digit 10 c (by omega) (by omega) (by omega))
      rw [drop_eq_cons_of_read hc]
      simp only [] at this ⊢
      omega

theorem quote_scan_lt : ∀ {l : List Nat} {off : Nat}, quote_scan l = some off → off < l.length
  | [], off => by
    intro h
    unfold quote_scan at h
    cases h
  | c :: r, off => by
    intro h
    unfold quote_scan at h
    split at h
    · cases h
      simp
    · split at h
      · rename_i h92
        rcases r with _ | ⟨x, r2⟩
        · cases h
        · rw [Option.map_eq_some'] at h
          obtain ⟨a, ha, hoff⟩ := h
          have := quote_scan_lt ha
          simp only [List.length_cons]
          omega
      · rw [Option.map_eq_some'] at h
        obtain ⟨a, ha, hoff⟩ := h
        have := quote_scan_lt ha
        simp only [List.length_cons]
        omega

theorem quoted_end_ok {bs : List Nat} {i qe j : Nat}
    (h : quoted_end bs i = .ok (qe, j)) : i ≤ qe ∧ qe < bs.length ∧ j = qe + 1 := by
  simp only [quoted_end] at h
  split at h
  · exact Except.noConfusion h
  · rename_i off hscan
    cases h
    have hlt := quote_scan_lt hscan
    simp only [List.length_drop] at hlt
    exact ⟨by omega, by omega, rfl⟩

theorem quoted_end_err {bs : List Nat} {i : Nat} {e : ParseErr}
    (h : quoted_end bs i = .error e) : e = .eof := by
  simp only [quoted_end] at h
  split at h
  · cases h
    rfl
  · exact Except.noConfusion h

theorem consume_quoted_ok {bs : List Nat} {i j : Nat} {t : List Nat} {tr : Bool}
    (h : consume_quoted bs i = .ok (t, tr, j)) : i < j ∧ j ≤ bs.length := by
  simp only [consume_quoted] at h
  split at h
  · exact Except.noConfusion h
  · rename_i i1 hreq
    obtain ⟨hi1, hilt⟩ := require_ok hreq
    split at h
    · exact Except.noConfusion h
    · rename_i qe j0 hqe
      obtain ⟨hq1, hq2, hq3⟩ := quoted_end_ok hqe
      split at h
      · cases h
        split
        · rename_i hm
          rcases matches_at_bound hm with hb | hb
          · simp only [List.length_cons, List.length_nil] at hb
            simp only []
            omega
          · cases hb
        · simp only []
          omega
      · exact Except.noConfusion h

theorem consume_quoted_err {bs : List Nat} {i : Nat} {e : ParseErr}
    (h : consume_quoted bs i = .error e) : e ≠ .outOfFuel := by
  simp only [consume_quoted] at h
  split at h
  · rename_i he
    cases h
    exact require_err he
  · split at h
    · rename_i he
      cases h
      rw [quoted_end_err he]
      simp
    · split at h
      · exact Except.noConfusion h
      · cases h
        simp

/-! ## Fuel sufficiency for the flag-set loop -/

theorem flag_step_err {bs : List Nat} {i c : Nat} {e : ParseErr}
    (h : flag_step bs i c = .error e) : e ≠ .outOfFuel := by
  simp only [flag_step] at h
  split at h
  · split at h
    · rename_i hx
      cases h
      obtain ⟨v, j, hv⟩ := consume_i64_shape bs i
      rw [hv] at hx
      exact Except.noConfusion hx
    · exact Except.noConfusion h
  · split at h
    · rename_i hs
      cases h
      exact consume_symbol_err hs
    · exact Except.noConfusion h

theorem flag_step_ok {bs : List Nat} {i c : Nat} {v : FlagSetValue} {j : Nat}
    (hc : read_byte bs i = some c) (hi : i ≤ bs.length)
    (h : flag_step bs i c = .ok (v, j)) : i + 1 ≤ j ∧ j ≤ bs.length := by
  simp only [flag_step] at h
  split at h
  · rename_i hdig
    split at h
    · exact Except.noConfusion h
    · rename_i x j2 hx
      cases h
      obtain ⟨h1, h2⟩ := consume_i64_ok hx
      exact ⟨consume_i64_progress hc (Or.inl hdig) hx, h2 hi⟩
  · split at h
    · exact Except.noConfusion h
    · rename_i s j2 hs
      cases h
      obtain ⟨h1, h2, h3⟩ := consume_symbol_ok hs
      exact ⟨h3 c hc, h2 hi⟩

theorem consume_flagset_loop_spec (bs : List Nat) : ∀ (fuel : Nat) (i : Nat)
    (acc : List FlagSetValue), i ≤ bs.length → bs.length + 1 - i ≤ fuel →
    (∀ e, consume_flagset_loop bs fuel i acc = .error e → e ≠ .outOfFuel) ∧
    (∀ fs j, consume_flagset_loop bs fuel i acc = .ok (fs, j) →
      i ≤ j ∧ j ≤ bs.length) := by
  intro fuel
  induction fuel with
  | zero =>
    intro i acc hi hf
    omega
  | succ f ih =>
    intro i acc hi hf
    constructor
    · intro e he
      simp only [consume_flagset_loop] at he
      split at he
      · exact Except.noConfusion he
      · rename_i c hc
        split at he
        · rename_i e0 hstep
          cases he
          exact flag_step_err hstep
        · rename_i v j1 hstep
          obtain ⟨hj1, hj2⟩ := flag_step_ok hc hi hstep
          split at he
          · rename_i h124
            have := read_byte_lt h124
            exact (ih (j1 + 1) (acc ++ [v]) (by omega) (by omega)).1 e he
          · exact Except.noConfusion he
    · intro fs j hok
      simp only [consume_flagset_loop] at hok
      split at hok
      · cases hok
        exact ⟨Nat.le_refl _, hi⟩
      · rename_i c hc
        split at hok
        · exact Except.noConfusion hok
        · rename_i v j1 hstep
          obtain ⟨hj1, hj2⟩ := flag_step_ok hc hi hstep
          split at hok
          · rename_i h124
            have := read_byte_lt h124
            have := (ih (j1 + 1) (acc ++ [v]) (by omega) (by omega)).2 fs j hok
            omega
          · cases hok
            omega

theorem consume_flagset_spec {bs : List Nat} {i : Nat} {first : List Nat}
    (hi : i ≤ bs.length) :
    (∀ e, consume_flagset bs i first = .error e → e ≠ .outOfFuel) ∧
    (∀ fs j, consume_flagset bs i first = .ok (fs, j) → i < j ∧ j ≤ bs.length) := by
  constructor
  · intro e he
    simp only [consume_flagset] at he
    split at he
    · rename_i hr
      cases he
      exact require_err hr
    · rename_i i1 hr
      obtain ⟨hi1, hlt⟩ := require_ok hr
      exact (consume_flagset_loop_spec bs (bs.length + 1) i1 [.symbol first]
          (by omega) (by omega)).1 e he
  · intro fs j hok
    simp only [consume_flagset] at hok
    split at hok
    · exact Except.noConfusion hok
    · rename_i i1 hr
      obtain ⟨hi1, hlt⟩ := require_ok hr
      have := (consume_flagset_loop_spec bs (bs.length + 1) i1 [.symbol first]
          (by omega) (by omega)).2 fs j hok
      omega

/-! ## Fuel sufficiency for the mutually recursive value grammar -/

theorem block_spec (bs : List Nat) : ∀ fuel : Nat,
    (∀ i, i ≤ bs.length → 3 * (bs.length + 1 - i) + 1 ≤ fuel →
      ArgOut bs i (consume_arg bs fuel i)) ∧
    (∀ i, i ≤ bs.length → 3 * (bs.length + 1 - i) + 2 ≤ fuel →
      SeqOut bs i (consume_arg_list bs fuel i)) ∧
    (∀ i acc, i ≤ bs.length → 3 * (bs.length + 1 - i) + 2 ≤ fuel →
      SeqOut bs i (consume_struct_loop bs fuel i acc)) ∧
    (∀ i, i ≤ bs.length → 3 * (bs.length + 1 - i) ≤ fuel →
      StrictOut bs i (consume_struct bs fuel i)) ∧
    (∀ i, i ≤ bs.length → 3 * (bs.length + 1 - i) ≤ fuel →
      StrictOut bs i (consume_array bs fuel i)) ∧
    (∀ i acc, i ≤ bs.length → 3 * (bs.length + 1 - i) + 2 ≤ fuel →
      SeqOut bs i (parse_args bs fuel i acc)) := by
  intro fuel
  induction fuel with
  | zero =>
    refine ⟨fun i hi hf => absurd hf (by omega),
      fun i hi hf => absurd hf (by omega),
      fun i acc hi hf => absurd hf (by omega),
      fun i hi hf => absurd hf (by omega),
      fun i hi hf => absurd hf (by omega),
      fun i acc hi hf => absurd hf (by omega)⟩
  | succ f ih =>
    obtain ⟨ihA, ihL, ihSL, ihSt, ihAr, ihP⟩ := ih
    refine ⟨?_, ?_, ?_, ?_, ?_, ?_⟩
    -- consume_arg
    · intro i hi hf
      have hge := arg_skip_ge bs i
      have hle := arg_skip_le hi
      simp only [consume_arg]
      set i1 := whitespace_comments bs (skip_char bs 44 (whitespace_comments bs i)) with hI1
      split
      · exact ⟨hge, hle, Or.inl rfl⟩
      · rename_i c hc
        have hclt : i1 < bs.length := read_byte_lt hc
        split
        · exact ⟨hge, hle, Or.inl rfl⟩
        · rename_i hc41
          split
          · rename_i halpha
            split
            · rename_i e hsym
              exact consume_symbol_err hsym
            · rename_i sym i2 hsym
              obtain ⟨hs1, hs2, hs3⟩ := consume_symbol_ok hsym
              have hi2 : i1 + 1 ≤ i2 := hs3 c hc
              have hi2l : i2 ≤ bs.length := hs2 (le_of_lt hclt)
              split
              · rename_i h124
                split
                · rename_i e hfl
                  exact (consume_flagset_spec hi2l).1 e hfl
                · rename_i flags j hfl
                  have hj := (consume_flagset_spec hi2l).2 flags j hfl
                  exact ⟨by omega, by omega, Or.inr (by omega)⟩
              · rename_i h124
                split
                · rename_i h61
                  have h61lt := read_byte_lt h61
                  have hIH := ihA (i2 + 1) (by omega) (by omega)
                  split
                  · rename_i e hrec
                    rw [hrec] at hIH
                    exact hIH
                  · rename_i j hrec
                    simp only [ArgOut]
                    simp
                  · rename_i a j hrec
                    rw [hrec] at hIH
                    obtain ⟨hr1, hr2, hr3⟩ := hIH
                    exact ⟨by omega, by omega, Or.inr (by omega)⟩
                · rename_i h61
                  split
                  · rename_i h40
                    have h40lt := read_byte_lt h40
                    have hIH := ihL (i2 + 1) (by omega) (by omega)
                    split
                    · rename_i e hrec
                      rw [hrec] at hIH
                      exact hIH
                    · rename_i args j hrec
                      rw [hrec] at hIH
                      obtain ⟨hr1, hr2⟩ := hIH
                      split
                      · rename_i e hreq
                        exact require_err hreq
                      · rename_i j2 hreq
                        obtain ⟨hq1, hq2⟩ := require_ok hreq
                        exact ⟨by omega, by omega, Or.inr (by omega)⟩
                  · rename_i h40
                    exact ⟨by omega, by omega, Or.inr (by omega)⟩
          · rename_i halpha
            split
            · rename_i hdig
              have hd : is_ascii_digit c = true ∨ c = 45 := by
                rcases Bool.or_eq_true_iff.mp hdig with h | h
                · exact Or.inl h
                · exact Or.inr (by simpa using h)
              split
              · rename_i e hnum
                obtain ⟨v, j, hv⟩ := consume_i64_shape bs i1
                rw [hv] at hnum
                exact Except.noConfusion hnum
              · rename_i x i2 hnum
                obtain ⟨hn1, hn2⟩ := consume_i64_ok hnum
                have hn3 : i1 + 1 ≤ i2 := consume_i64_progress hc hd hnum
                have hn4 : i2 ≤ bs.length := hn2 (le_of_lt hclt)
                split
                · rename_i h42
                  have h42lt := read_byte_lt h42
                  split
                  · rename_i e h2
                    obtain ⟨v, j, hv⟩ := consume_i64_shape bs (i2 + 1)
                    rw [hv] at h2
                    exact Except.noConfusion h2
                  · rename_i y j h2
                    obtain ⟨hp1, hp2⟩ := consume_i64_ok h2
                    have hp3 : j ≤ bs.length := hp2 (by omega)
                    exact ⟨by omega, by omega, Or.inr (by omega)⟩
                · rename_i h42
                  exact ⟨by omega, by omega, Or.inr (by omega)⟩
            · rename_i hdig
              split
              · rename_i h34
                split
                · rename_i e hq
                  exact consume_quoted_err hq
                · rename_i t tr j hq
                  obtain ⟨hq1, hq2⟩ := consume_quoted_ok hq
                  exact ⟨by omega, by omega, Or.inr (by omega)⟩
              · rename_i h34
                split
                · rename_i h123
                  have hIH := ihSt i1 (le_of_lt hclt) (by omega)
                  split
                  · rename_i e hst
                    rw [hst] at hIH
                    exact hIH
                  · rename_i st j hst
                    rw [hst] at hIH
                    obtain ⟨hr1, hr2⟩ := hIH
                    exact ⟨by omega, by omega, Or.inr (by omega)⟩
                · rename_i h123
                  split
                  · rename_i h91
                    have hIH := ihAr i1 (le_of_lt hclt) (by omega)
                    split
                    · rename_i e har
                      rw [har] at hIH
                      exact hIH
                    · rename_i elems j har
                      rw [har] at hIH
                      obtain ⟨hr1, hr2⟩ := hIH
                      exact ⟨by omega, by omega, Or.inr (by omega)⟩
                  · rename_i h91
                    simp only [ArgOut]
                    simp
    -- consume_arg_list
    · intro i hi hf
      have hge := list_skip_ge bs i
      have hle := list_skip_le hi
      simp only [consume_arg_list]
      set i1 := whitespace_comments bs (skip_char bs 44 i) with hI1
      split
      · exact ⟨hge, hle⟩
      · rename_i c hc
        split
        · exact ⟨hge, hle⟩
        · rename_i hc93
          have hIH := ihA i1 hle (by omega)
          split
          · rename_i e hrec
            rw [hrec] at hIH
            exact hIH
          · rename_i j hrec
            rw [hrec] at hIH
            obtain ⟨hr1, hr2, hr3⟩ := hIH
            exact ⟨by omega, by omega⟩
          · rename_i a j hrec
            rw [hrec] at hIH
            obtain ⟨hr1, hr2, hr3⟩ := hIH
            have hstrict : i1 + 1 ≤ j := by
              rcases hr3 with h | h
              · exact Option.noConfusion h
              · exact h
            have hIH2 := ihL j hr2 (by omega)
            split
            · rename_i e hrec2
              rw [hrec2] at hIH2
              exact hIH2
            · rename_i rest j2 hrec2
              rw [hrec2] at hIH2
              obtain ⟨hq1, hq2⟩ := hIH2
              exact ⟨by omega, by omega⟩
    -- consume_struct_loop
    · intro i acc hi hf
      have hge := list_skip_ge bs i
      have hle := list_skip_le hi
      simp only [consume_struct_loop]
      set i1 := whitespace_comments bs (skip_char bs 44 i) with hI1
      split
      · rename_i hdots
        rcases matches_at_bound hdots with hb | hb
        · have hb3 : i1 + 3 ≤ bs.length := by simpa using hb
          exact ⟨by omega, by omega⟩
        · exact absurd hb (by simp)
      · rename_i hdots
        split
        · exact ⟨hge, hle⟩
        · rename_i c hc
          have hclt := read_byte_lt hc
          split
          · exact ⟨hge, hle⟩
          · rename_i halpha
            split
            · rename_i e hsym
              exact consume_symbol_err hsym
            · rename_i field i2 hsym
              obtain ⟨hs1, hs2, hs3⟩ := consume_symbol_ok hsym
              have hi2 : i1 + 1 ≤ i2 := hs3 c hc
              have hi2l : i2 ≤ bs.length := hs2 (le_of_lt hclt)
              split
              · rename_i e hreq
                exact require_err hreq
              · rename_i i3 hreq
                obtain ⟨hq1, hq2⟩ := require_ok hreq
                have hIH := ihA i3 (by omega) (by omega)
                split
                · rename_i e hrec
                  rw [hrec] at hIH
                  exact hIH
                · rename_i j hrec
                  simp only [SeqOut]
                  simp
                · rename_i v j hrec
                  rw [hrec] at hIH
                  obtain ⟨hr1, hr2, hr3⟩ := hIH
                  have hstrict : i3 + 1 ≤ j := by
                    rcases hr3 with h | h
                    · exact Option.noConfusion h
                    · exact h
                  have hIH2 := ihSL j (insert_assoc field v acc) hr2 (by omega)
                  rcases hout : consume_struct_loop bs f j (insert_assoc field v acc) with
                    e | ⟨fields, j2⟩
                  · rw [hout] at hIH2
                    exact hIH2
                  · rw [hout] at hIH2
                    obtain ⟨hw1, hw2⟩ := hIH2
                    exact ⟨by omega, by omega⟩
    -- consume_struct
    · intro i hi hf
      simp only [consume_struct]
      split
      · rename_i e hreq
        exact require_err hreq
      · rename_i i1 hreq
        obtain ⟨hq1, hq2⟩ := require_ok hreq
        have hIH := ihSL i1 [] (by omega) (by omega)
        split
        · rename_i e hrec
          rw [hrec] at hIH
          exact hIH
        · rename_i fields j hrec
          rw [hrec] at hIH
          obtain ⟨hr1, hr2⟩ := hIH
          split
          · rename_i e hreq2
            exact require_err hreq2
          · rename_i j2 hreq2
            obtain ⟨hw1, hw2⟩ := require_ok hreq2
            exact ⟨by omega, by omega⟩
    -- consume_array
    · intro i hi hf
      simp only [consume_array]
      split
      · rename_i e hreq
        exact require_err hreq
      · rename_i i1 hreq
        obtain ⟨hq1, hq2⟩ := require_ok hreq
        have hIH := ihL i1 (by omega) (by omega)
        split
        · rename_i e hrec
          rw [hrec] at hIH
          exact hIH
        · rename_i elems j hrec
          rw [hrec] at hIH
          obtain ⟨hr1, hr2⟩ := hIH
          split
          · rename_i e hreq2
            exact require_err hreq2
          · rename_i j2 hreq2
            obtain ⟨hw1, hw2⟩ := require_ok hreq2
            exact ⟨by omega, by omega⟩
    -- parse_args
    · intro i acc hi hf
      simp only [parse_args]
      have hIH := ihA i hi (by omega)
      split
      · rename_i e hrec
        rw [hrec] at hIH
        exact hIH
      · rename_i j hrec
        rw [hrec] at hIH
        obtain ⟨hr1, hr2, hr3⟩ := hIH
        exact ⟨hr1, hr2⟩
      · rename_i a j hrec
        rw [hrec] at hIH
        obtain ⟨hr1, hr2, hr3⟩ := hIH
        have hstrict : i + 1 ≤ j := by
          rcases hr3 with h | h
          · exact Option.noConfusion h
          · exact h
        have hIH2 := ihP j (acc ++ [a]) hr2 (by omega)
        rcases hout : parse_args bs f j (acc ++ [a]) with e | ⟨args, j2⟩
        · rw [hout] at hIH2
          exact hIH2
        · rw [hout] at hIH2
          obtain ⟨hw1, hw2⟩ := hIH2
          exact ⟨by omega, by omega⟩

/-! ## Totality of `parse` -/

theorem parse_rest_ok {bs : List Nat} {fuel : Nat} {name : List Nat} {i0 : Nat} {r : Syscall}
    (h : parse_rest bs fuel name i0 = .ok r) :
    r.name = name ∧ r.error_details = none := by
  simp only [parse_rest] at h
  split at h
  · exact Except.noConfusion h
  · split at h
    · exact Except.noConfusion h
    · split at h
      · exact Except.noConfusion h
      · split at h
        · exact Except.noConfusion h
        · split at h
          · exact Except.noConfusion h
          · cases h
            exact ⟨rfl, rfl⟩

theorem parse_rest_err {bs : List Nat} {fuel : Nat} {name : List Nat} {i0 : Nat} {e : ParseErr}
    (hfuel : 3 * (bs.length + 1) + 2 ≤ fuel)
    (h : parse_rest bs fuel name i0 = .error e) : e ≠ .outOfFuel := by
  simp only [parse_rest] at h
  split at h
  · rename_i hreq
    cases h
    exact require_err hreq
  · rename_i i1 hreq
    obtain ⟨hq1, hq2⟩ := require_ok hreq
    have hia := (block_spec bs fuel).2.2.2.2.2 i1 [] (by omega) (by omega)
    split at h
    · rename_i hpa
      cases h
      rw [hpa] at hia
      exact hia
    · rename_i args i2 hpa
      split at h
      · rename_i hreq2
        cases h
        exact require_err hreq2
      · split at h
        · rename_i hreq3
          cases h
          exact require_err hreq3
        · split at h
          · rename_i e0 hi64
            cases h
            rcases consume_i64_shape bs _ with ⟨v, j, hv⟩
            rw [hi64] at hv
            exact Except.noConfusion hv
          · exact Except.noConfusion h

theorem parse_err {bs : List Nat} {e : ParseErr} {nm : List Nat}
    (h : parse bs (parse_fuel bs) = (.error e, nm)) : e ≠ .outOfFuel := by
  rcases hsym : consume_symbol bs 0 with e0 | ⟨name, i0⟩
  · simp only [parse, hsym] at h
    injection h with h1 h2
    cases h1
    exact consume_symbol_err hsym
  · simp only [parse, hsym] at h
    injection h with h1 h2
    exact parse_rest_err (by simp [parse_fuel]) h1

theorem parse_name (bs : List Nat) (fuel : Nat) :
    (parse bs fuel).2 =
      (match consume_symbol bs 0 with
       | .ok (n, _) => n
       | .error _ => []) := by
  simp only [parse]
  split
  · rename_i hsym
    rw [hsym]
  · rename_i name i0 hsym
    rw [hsym]

/-! ## The claims -/

theorem err_probe_eq {p : Except ParseErr Syscall × List Nat} {e : ParseErr}
    {nm : List Nat} (h : err_probe p = some (e, nm)) : p = (.error e, nm) := by
  rcases p with ⟨res, nm2⟩
  rcases res with e2 | r
  · simp only [err_probe] at h
    cases h
    rfl
  · simp only [err_probe] at h
    exact Option.noConfusion h

/-- C1: the Line Parser is total.  For every input byte sequence the embedded
parser completes within the fuel budget used by `parse_syscall` (the
fuel-exhaustion sentinel `ParseErr.outOfFuel`, which models an aborting
computation, never occurs), and every internal parse error is caught by
`parse_syscall` and converted into a failure-bearing `Syscall` record, so a
record is returned for every input.  (`i64` arithmetic is modelled with
twos-complement wrapping, the release-build Rust semantics.) -/
theorem claim_c1 : ∀ bs : List Nat,
    (parse bs (parse_fuel bs)).1 ≠ Except.error ParseErr.outOfFuel ∧
    (∀ e nm, parse bs (parse_fuel bs) = (.error e, nm) →
      parse_syscall bs = ⟨nm, [], 0, some ⟨e, bs⟩⟩) := by
  intro bs
  constructor
  · intro hcontra
    rcases hp : parse bs (parse_fuel bs) with ⟨res, nm⟩
    rw [hp] at hcontra
    simp only [] at hcontra
    rw [hcontra] at hp
    exact parse_err hp rfl
  · intro e nm hp
    simp only [parse_syscall, hp]

/-- Witness for C1 at the concrete failing line `write(` (the partial-line
unit test of the source): the error is caught and becomes a failure record. -/
theorem claim_c1_witness :
    parse_syscall (ascii "write(") =
      ⟨ascii "write", [], 0, some ⟨.eof, ascii "write("⟩⟩ :=
  (claim_c1 (ascii "write(")).2 .eof (ascii "write") (err_probe_eq (by decide))

/-- C2: every record returned by `parse_syscall` is in exactly one of two
shapes: fully parsed (`error_details = none`), or a failure record with empty
`args`, zero `return_value`, `error_details` carrying the parse error and the
original line, and `name` the best-effort prefix read by `consume_symbol`
(empty when the very first token already failed). -/
theorem claim_c2 : ∀ bs : List Nat,
    (parse_syscall bs).error_details = none ∨
    ((parse_syscall bs).args = [] ∧ (parse_syscall bs).return_value = 0 ∧
     (∃ e, e ≠ ParseErr.outOfFuel ∧ (parse_syscall bs).error_details = some ⟨e, bs⟩) ∧
     (parse_syscall bs).name =
       (match consume_symbol bs 0 with
        | .ok (n, _) => n
        | .error _ => [])) := by
  intro bs
  rcases hp : parse bs (parse_fuel bs) with ⟨res, nm⟩
  rcases res with e | r
  · right
    have hname := parse_name bs (parse_fuel bs)
    rw [hp] at hname
    simp only [] at hname
    refine ⟨?_, ?_, ⟨e, parse_err hp, ?_⟩, ?_⟩ <;>
      simp [parse_syscall, hp, hname]
  · left
    simp only [parse_syscall, hp]
    rcases hsym : consume_symbol bs 0 with e0 | ⟨name, i0⟩
    · simp only [parse, hsym] at hp
      injection hp with h1 h2
      exact Except.noConfusion h1
    · simp only [parse, hsym] at hp
      injection hp with h1 h2
      exact (parse_rest_ok h1).2

/-! ## Arithmetic facts for the numeric claims -/

theorem wrap64_range (x : Int) : -(2 ^ 63) ≤ wrap64 x ∧ wrap64 x < 2 ^ 63 := by
  simp only [wrap64]
  omega

theorem wrap64_eq_self {x : Int} (h1 : -(2 ^ 63) ≤ x) (h2 : x < 2 ^ 63) :
    wrap64 x = x := by
  simp only [wrap64]
  omega

theorem digits_run_range (radix : Nat) : ∀ (l : List Nat) (r : Int),
    -(2 ^ 63) ≤ r → r < 2 ^ 63 →
    -(2 ^ 63) ≤ (digits_run radix l r).1 ∧ (digits_run radix l r).1 < 2 ^ 63
  | [], r => by
    intro h1 h2
    simp only [digits_run]
    exact ⟨h1, h2⟩
  | c :: rest, r => by
    intro h1 h2
    simp only [digits_run]
    split
    · rename_i v hv
      have hw := wrap64_range (wrap64 (r * (radix : Int)) + (v : Int))
      have := digits_run_range radix rest (wrap64 (wrap64 (r * (radix : Int)) + (v : Int)))
        hw.1 hw.2
      exact this
    · exact ⟨h1, h2⟩

theorem to_digit_none {c : Nat} (h : is_ascii_digit c = false) :
    to_digit 10 c = none := by
  simp only [is_ascii_digit, Bool.and_eq_true, decide_eq_true_eq] at h
  simp only [to_digit]
  split_ifs with h1 h2 h3 <;> simp_all <;> omega

theorem cob_none {bs : List Nat} {i : Nat} (h : read_byte bs i = none) :
    consume_optional_i64_base bs i = (10, i) := by
  simp only [consume_optional_i64_base]
  split
  · rename_i ha hb
    rw [h] at ha
    cases ha
  · rename_i ha hb
    rw [h] at ha
    cases ha
  · rfl

theorem cob_hex {bs : List Nat} {i : Nat} (h0 : read_byte bs i = some 48)
    (h1 : read_byte bs (i + 1) = some 120) :
    consume_optional_i64_base bs i = (16, i + 2) := by
  simp only [consume_optional_i64_base]
  split
  · rfl
  · rename_i ha hb
    rw [h1] at hb
    cases hb
    rename_i hno
    exact absurd rfl hno
  · rename_i hno
    exact absurd h1 (by simpa using hno 120 h0)

theorem cob_oct {bs : List Nat} {i c : Nat} (h0 : read_byte bs i = some 48)
    (h1 : read_byte bs (i + 1) = some c) (h120 : c ≠ 120)
    (hd : is_ascii_digit c = true) :
    consume_optional_i64_base bs i = (8, i + 1) := by
  simp only [consume_optional_i64_base]
  split
  · rename_i ha hb
    rw [h1] at hb
    cases hb
    exact absurd rfl h120
  · rename_i ha hb
    rw [h1] at hb
    cases hb
    rw [if_pos hd]
  · rename_i hno
    exact absurd h1 (by simpa using hno c h0)

theorem drop_eq_nil_of_read_none {bs : List Nat} {i : Nat} (h : read_byte bs i = none) :
    bs.drop i = [] :=
  List.drop_eq_nil_of_le (read_byte_eq_none.mp h)

/-- The digit loop consumes nothing and yields the accumulator unchanged when
the byte at the cursor is not a digit of the radix (or the input has ended). -/
theorem consume_i64_digits_nil {bs : List Nat} {radix i : Nat} {r : Int}
    (h : ∀ c, read_byte bs i = some c → to_digit radix c = none) :
    consume_i64_digits bs radix i r = (r, i) := by
  simp only [consume_i64_digits]
  rcases hr : read_byte bs i with _ | c
  · rw [drop_eq_nil_of_read_none hr]
    simp [digits_run]
  · rw [drop_eq_cons_of_read hr]
    simp only [digits_run]
    rw [h c hr]
    simp

/-- C4: numeric literal parsing.  The four concrete examples of the spec; the
radix selection rules (`0x` ⇒ 16, `0` followed by a digit ⇒ 8, otherwise 10);
a leading `-` negates the final value (modulo 64-bit wrapping); and every
parsed value fits a 64-bit signed integer. -/
theorem claim_c4 :
    consume_i64 (ascii "0xfF") 0 = .ok (255, 4) ∧
    consume_i64 (ascii "-0xfF") 0 = .ok (-255, 5) ∧
    consume_i64 (ascii "0600") 0 = .ok (384, 4) ∧
    consume_i64 (ascii "0") 0 = .ok (0, 1) ∧
    (∀ bs i, read_byte bs i = some 48 → read_byte bs (i + 1) = some 120 →
      consume_optional_i64_base bs i = (16, i + 2)) ∧
    (∀ bs i c, read_byte bs i = some 48 → read_byte bs (i + 1) = some c → c ≠ 120 →
      is_ascii_digit c = true → consume_optional_i64_base bs i = (8, i + 1)) ∧
    (∀ bs i c, read_byte bs i = some c → c ≠ 48 →
      consume_optional_i64_base bs i = (10, i)) ∧
    (∀ bs i v j, read_byte bs i = some 45 → read_byte bs (i + 1) ≠ some 45 →
      consume_i64 bs (i + 1) = .ok (v, j) →
      consume_i64 bs i = .ok (wrap64 (-v), j)) ∧
    (∀ bs i v j, consume_i64 bs i = .ok (v, j) → -(2 ^ 63) ≤ v ∧ v < 2 ^ 63) := by
  refine ⟨by decide, by decide, by decide, by decide,
    fun bs i h0 h1 => cob_hex h0 h1,
    fun bs i c h0 h1 h120 hd => cob_oct h0 h1 h120 hd,
    fun bs i c h0 h48 => cob_10_of_ne48 h0 h48,
    ?_, ?_⟩
  · intro bs i v j h45 h45b h
    simp only [consume_i64] at h ⊢
    rw [if_neg h45b] at h
    rw [if_pos h45]
    simp only [] at h ⊢
    have hrange := digits_run_range
      (consume_optional_i64_base bs (i + 1)).1
      (bs.drop (consume_optional_i64_base bs (i + 1)).2) 0 (by omega) (by omega)
    simp only [consume_i64_digits] at h ⊢
    injection h with h1
    injection h1 with hv hj
    rw [← hv, ← hj]
    rw [one_mul] at hv ⊢
    have hval := wrap64_eq_self hrange.1 hrange.2
    rw [hval]
    rw [neg_one_mul]
  · intro bs i v j h
    simp only [consume_i64] at h
    injection h with h1
    injection h1 with hv hj
    rw [← hv]
    exact wrap64_range _

/-- Witness for C4: the general conjuncts applied at concrete inputs — the
radix rules at `0x…`, `07`, `9…`, and sign negation at `-7`. -/
theorem claim_c4_witness :
    consume_optional_i64_base (ascii "0x1") 0 = (16, 2) ∧
    consume_optional_i64_base (ascii "07") 0 = (8, 1) ∧
    consume_optional_i64_base (ascii "9") 0 = (10, 0) ∧
    consume_i64 (ascii "-7") 0 = .ok (wrap64 (-7), 2) ∧
    -(2 ^ 63) ≤ (255 : Int) ∧ (255 : Int) < 2 ^ 63 := by
  refine ⟨claim_c4.2.2.2.2.1 (ascii "0x1") 0 (by decide) (by decide),
    claim_c4.2.2.2.2.2.1 (ascii "07") 0 55 (by decide) (by decide) (by decide) (by decide),
    claim_c4.2.2.2.2.2.2.1 (ascii "9") 0 57 (by decide) (by decide),
    claim_c4.2.2.2.2.2.2.2.1 (ascii "-7") 0 7 2 (by decide) (by decide) (by decide),
    ?_, ?_⟩
  · exact (claim_c4.2.2.2.2.2.2.2.2 (ascii "0xfF") 0 255 4 (by decide)).1
  · exact (claim_c4.2.2.2.2.2.2.2.2 (ascii "0xfF") 0 255 4 (by decide)).2

/-- C10 (implicit): the integer reader accepts an empty digit sequence and
yields 0 — when the byte at the cursor (after an optional `-`) is not an
ASCII decimal digit, or the input has ended, `consume_i64` returns `Ok(0)`
without consuming a digit; consequently a line whose return value position
holds no digit still parses to a success record with `return_value = 0`. -/
theorem claim_c10 :
    (∀ bs i c, read_byte bs i = some c → c ≠ 45 → is_ascii_digit c = false →
      consume_i64 bs i = .ok (0, i)) ∧
    (∀ bs i, read_byte bs i = none → consume_i64 bs i = .ok (0, i)) ∧
    (∀ bs i c, read_byte bs i = some 45 → read_byte bs (i + 1) = some c →
      is_ascii_digit c = false → consume_i64 bs i = .ok (0, i + 1)) ∧
    (∀ bs i, read_byte bs i = some 45 → read_byte bs (i + 1) = none →
      consume_i64 bs i = .ok (0, i + 1)) ∧
    (parse_syscall (ascii "close() = ?")).return_value = 0 ∧
    (parse_syscall (ascii "close() = ?")).error_details = none ∧
    (parse_syscall (ascii "close() = -")).return_value = 0 ∧
    (parse_syscall (ascii "close() = -")).error_details = none := by
  have hzero : wrap64 ((1 : Int) * 0) = 0 := by
    simp only [wrap64]
    omega
  have hzneg : wrap64 ((-1 : Int) * 0) = 0 := by
    simp only [wrap64]
    omega
  refine ⟨?_, ?_, ?_, ?_, by decide, by decide, by decide, by decide⟩
  · intro bs i c hc h45 hd
    have hne45 : read_byte bs i ≠ some 45 := by
      rw [hc]
      intro hh
      cases hh
      exact h45 rfl
    have hne48 : c ≠ 48 := by
      intro hh
      rw [hh] at hd
      simp [is_ascii_digit] at hd
    simp only [consume_i64]
    rw [if_neg hne45]
    simp only []
    rw [cob_10_of_ne48 hc hne48]
    simp only []
    rw [consume_i64_digits_nil (fun c2 hc2 => by
      rw [hc] at hc2
      cases hc2
      exact to_digit_none hd)]
    rw [hzero]
  · intro bs i hc
    have hne45 : read_byte bs i ≠ some 45 := by
      rw [hc]
      intro hh
      cases hh
    simp only [consume_i64]
    rw [if_neg hne45]
    simp only []
    rw [cob_none hc]
    simp only []
    rw [consume_i64_digits_nil (fun c2 hc2 => by rw [hc] at hc2; cases hc2)]
    rw [hzero]
  · intro bs i c h45 hc hd
    have hne48 : c ≠ 48 := by
      intro hh
      rw [hh] at hd
      simp [is_ascii_digit] at hd
    simp only [consume_i64]
    rw [if_pos h45]
    simp only []
    rw [cob_10_of_ne48 hc hne48]
    simp only []
    rw [consume_i64_digits_nil (fun c2 hc2 => by
      rw [hc] at hc2
      cases hc2
      exact to_digit_none hd)]
    rw [hzneg]
  · intro bs i h45 hc
    simp only [consume_i64]
    rw [if_pos h45]
    simp only []
    rw [cob_none hc]
    simp only []
    rw [consume_i64_digits_nil (fun c2 hc2 => by rw [hc] at hc2; cases hc2)]
    rw [hzneg]

/-- Witness for C10: the no-digit case at `?`, at end of input, and after a
lone `-`. -/
theorem claim_c10_witness :
    consume_i64 (ascii "?") 0 = .ok (0, 0) ∧
    consume_i64 (ascii "") 0 = .ok (0, 0) ∧
    consume_i64 (ascii "-x") 0 = .ok (0, 1) ∧
    consume_i64 (ascii "-") 0 = .ok (0, 1) :=
  ⟨claim_c10.1 (ascii "?") 0 63 (by decide) (by decide) (by decide),
   claim_c10.2.1 (ascii "") 0 (by decide),
   claim_c10.2.2.1 (ascii "-x") 0 120 (by decide) (by decide) (by decide),
   claim_c10.2.2.2.1 (ascii "-") 0 (by decide) (by decide)⟩

/-- C7: pipeline message discipline.  The messages sent by the producer are
exactly one `Message.syscall` per non-filtered line — whether its parse
succeeded or failed — none for filtered lines, in the same relative order as
the input lines (the send list is the order-preserving image of the filtered
input). -/
theorem claim_c7 : ∀ lines : List (List Nat),
    strace_messages lines =
      (lines.filter
        (fun l => !(matches_at l 0 [43, 43, 43] || matches_at l 0 [45, 45, 45]))).map
        (fun l => Message.syscall (parse_syscall l)) := by
  intro lines
  induction lines with
  | nil => rfl
  | cons l rest ih =>
    by_cases h : (matches_at l 0 [43, 43, 43] || matches_at l 0 [45, 45, 45]) = true
    · simp only [strace_messages, List.filter_cons, h, ih]
      simp
    · have hb : (matches_at l 0 [43, 43, 43] || matches_at l 0 [45, 45, 45]) = false :=
        Bool.eq_false_iff.mpr h
      simp only [strace_messages, List.filter_cons, hb, ih]
      simp

/-- C8: every line equal to or prefixed by the process-exit marker `+++` or
the signal-delivery marker `---` is dropped: it contributes no message and no
event to the run, which proceeds exactly as if the line were absent. -/
theorem claim_c8 : ∀ (pre post : List (List Nat)) (l : List Nat) (b : Bool),
    (matches_at l 0 (ascii "+++") = true ∨ matches_at l 0 (ascii "---") = true) →
    strace_messages (pre ++ l :: post) = strace_messages (pre ++ post) ∧
    strace_run (pre ++ l :: post) b = strace_run (pre ++ post) b := by
  have hp : ascii "+++" = [43, 43, 43] := by decide
  have hm : ascii "---" = [45, 45, 45] := by decide
  intro pre post l b hmark
  rw [hp, hm] at hmark
  have hcond : (matches_at l 0 [43, 43, 43] || matches_at l 0 [45, 45, 45]) = true := by
    rcases hmark with h | h <;> simp [h]
  induction pre with
  | nil =>
    constructor
    · simp only [List.nil_append, strace_messages, hcond]
      simp
    · simp only [List.nil_append, strace_run, hcond]
      simp
  | cons p rest ih =>
    by_cases h : (matches_at p 0 [43, 43, 43] || matches_at p 0 [45, 45, 45]) = true
    · constructor
      · simp only [List.cons_append, strace_messages, h, ih.1]
        simp [ih.1]
      · simp only [List.cons_append, strace_run, h]
        simp [ih.2]
    · constructor
      · simp only [List.cons_append, strace_messages, if_neg h]
        simp [ih.1]
      · simp only [List.cons_append, strace_run, if_neg h]
        simp [ih.2]

/-- Witness for C8 at a concrete exit-notice line between two syscall lines. -/
theorem claim_c8_witness :
    strace_messages
        [ascii "close(3) = 0", ascii "+++ exited with 0 +++", ascii "write(1) = 1"] =
      strace_messages [ascii "close(3) = 0", ascii "write(1) = 1"] ∧
    strace_run
        [ascii "close(3) = 0", ascii "+++ exited with 0 +++", ascii "write(1) = 1"] true =
      strace_run [ascii "close(3) = 0", ascii "write(1) = 1"] true :=
  claim_c8 [ascii "close(3) = 0"] [ascii "write(1) = 1"]
    (ascii "+++ exited with 0 +++") true (Or.inl (by decide))

/-- C9: deferred fatal exit.  For any run, all messages are sent first (the
same messages whether the tracer exits cleanly or not — nothing is retracted),
then the channel sender is released, and only then does the producer return:
success on a clean exit, the fatal error on a non-zero exit status. -/
theorem claim_c9 : ∀ lines : List (List Nat),
    strace_run lines true =
      (strace_messages lines).map StraceEvent.send ++
        [StraceEvent.close, StraceEvent.ret (.ok ())] ∧
    strace_run lines false =
      (strace_messages lines).map StraceEvent.send ++
        [StraceEvent.close, StraceEvent.ret (.error "strace returned a non-zero exit code")] := by
  intro lines
  induction lines with
  | nil => exact ⟨rfl, rfl⟩
  | cons l rest ih =>
    by_cases h : (matches_at l 0 [43, 43, 43] || matches_at l 0 [45, 45, 45]) = true
    · constructor
      · simp only [strace_run, strace_messages, h, ih.1]
        simp
      · simp only [strace_run, strace_messages, h, ih.2]
        simp
    · constructor
      · simp only [strace_run, strace_messages, if_neg h, ih.1]
        simp
      · simp only [strace_run, strace_messages, if_neg h, ih.2]
        simp

/-! ## The quoted-string claim (C5) -/

theorem read_of_drop {bs : List Nat} {i c : Nat} {t : List Nat}
    (h : bs.drop i = c :: t) : read_byte bs i = some c := by
  have : (bs.drop i).get? 0 = some c := by rw [h]; rfl
  rw [List.get?_drop] at this
  simpa [read_byte] using this

theorem quote_scan_body : ∀ (content rest : List Nat), quoted_body content = true →
    quote_scan (content ++ 34 :: rest) = some content.length
  | [], rest, h => by
    show quote_scan (34 :: rest) = some 0
    unfold quote_scan
    simp
  | c :: r, rest, h => by
    unfold quoted_body at h
    simp only [List.cons_append]
    unfold quote_scan
    split_ifs with h34 h92
    · rw [if_pos h34] at h
      exact Bool.noConfusion h
    · rw [if_neg h34, if_pos h92] at h
      rcases r with _ | ⟨x, r2⟩
      · exact Bool.noConfusion h
      · simp only [List.cons_append]
        rw [quote_scan_body r2 rest h]
        simp only [Option.map_some']
        simp [List.length_cons]
    · rw [if_neg h34, if_neg h92] at h
      rw [quote_scan_body r rest h]
      simp only [Option.map_some']
      simp [List.length_cons]

theorem matches_at_drop (bs : List Nat) (j : Nat) (p : List Nat) :
    matches_at bs j p = matches_at (bs.drop j) 0 p := by
  simp only [matches_at, byte_slice, List.drop_drop, List.length_drop,
    List.drop_zero, Nat.zero_add, Nat.add_sub_cancel_left, Nat.sub_zero]
  rfl

/-- C5: quoted-string parsing.  For any quoted value whose body is traversed
without an unescaped terminator (`quoted_body`) and is valid UTF-8, the parser
returns exactly the bytes between the quotes — backslashes and escaped
characters verbatim, nothing decoded — with `truncated = true` exactly when a
literal `...` immediately follows the closing quote (consumed and otherwise
discarded), and `truncated = false` in its absence. -/
theorem claim_c5 : ∀ (bs : List Nat) (i : Nat) (content rest : List Nat),
    bs.drop i = 34 :: (content ++ 34 :: rest) →
    quoted_body content = true →
    utf8_valid content = true →
    consume_quoted bs i =
      .ok (content, matches_at rest 0 [46, 46, 46],
        i + 2 + content.length +
          (if matches_at rest 0 [46, 46, 46] = true then 3 else 0)) := by
  intro bs i content rest hdrop hbody hignore
  have hr34 : read_byte bs i = some 34 := read_of_drop hdrop
  have hdrop1 : bs.drop (i + 1) = content ++ 34 :: rest := by
    have h0 : bs.drop (i + 1) = (bs.drop i).tail := by
      rw [← List.drop_drop]
      simp [List.drop_one]
    rw [h0, hdrop]
    rfl
  have hscan : quote_scan (bs.drop (i + 1)) = some content.length := by
    rw [hdrop1]
    exact quote_scan_body content rest hbody
  have hqe : quoted_end bs (i + 1) =
      .ok (i + 1 + content.length, i + 1 + content.length + 1) := by
    simp only [quoted_end, hscan]
  have hslice : byte_slice bs (i + 1) (i + 1 + content.length) = content := by
    simp only [byte_slice, hdrop1, Nat.add_sub_cancel_left]
    exact List.take_left content (34 :: rest)
  have hreq : require bs 34 i = .ok (i + 1) := by
    simp [require, hr34]
  have hidx : i + 1 + content.length + 1 = i + 2 + content.length := by omega
  have hdrop2 : bs.drop (i + 2 + content.length) = rest := by
    have h1 : (bs.drop (i + 1)).drop (content.length + 1) =
        bs.drop (i + 1 + (content.length + 1)) := List.drop_drop _ _ _
    have h2 : (content ++ 34 :: rest).drop (content.length + 1) = rest := by
      have h4 : (content ++ 34 :: rest).drop (content.length + 1) =
          ((content ++ 34 :: rest).drop content.length).drop 1 := by
        rw [List.drop_drop]
      rw [h4, List.drop_left]
      rfl
    rw [hdrop1, h2] at h1
    rw [show i + 2 + content.length = i + 1 + (content.length + 1) by omega]
    exact h1.symm
  have hmat : matches_at bs (i + 1 + content.length + 1) [46, 46, 46] =
      matches_at rest 0 [46, 46, 46] := by
    rw [hidx, matches_at_drop, hdrop2]
  simp only [consume_quoted, hreq, hqe, hslice, hignore, hmat]
  by_cases hm : matches_at rest 0 [46, 46, 46] = true
  · rw [hm]
    rw [show i + 1 + content.length + 1 + 3 = i + 2 + content.length + 3 by omega]
    simp
  · have hm2 : matches_at rest 0 [46, 46, 46] = false := Bool.eq_false_iff.mpr hm
    rw [hm2]
    rw [show i + 1 + content.length + 1 = i + 2 + content.length by omega]
    simp

/-- Witness for C5 at a concrete quoted value with an escaped quote inside
and a trailing truncation marker: `"a\"b"...`. -/
theorem claim_c5_witness :
    consume_quoted (ascii "\"a\\\"b\"...") 0 = .ok (ascii "a\\\"b", true, 9) := by
  have h := claim_c5 (ascii "\"a\\\"b\"...") 0 (ascii "a\\\"b") (ascii "...")
    (by decide) (by decide) (by decide)
  rw [h]
  decide

theorem lookup_insert_assoc : ∀ (k : List Nat) (v : SyscallArg)
    (m : List (List Nat × SyscallArg)), lookup_assoc k (insert_assoc k v m) = some v
  | k, v, [] => by
    simp [insert_assoc, lookup_assoc]
  | k, v, (k2, v2) :: rest => by
    simp only [insert_assoc]
    split
    · simp [lookup_assoc]
    · rename_i hne
      simp only [lookup_assoc, if_neg hne]
      exact lookup_insert_assoc k v rest

/-- C6: struct parsing.  On the fstat example line of the spec the struct has exactly the
two textually present fields (the trailing `...` ends the struct early and
leaves no placeholder), `st_mode` is a flag set whose second alternative is
the raw numeric value 384 (0o600), and the line parses to a success record;
when the same field name occurs twice, the last occurrence wins (shown both on
the map operation in general and on a concrete duplicate-field line). -/
theorem claim_c6 :
    (((arg_value (ascii "fstat(1, \x7bst_mode=S_IFIFO|0600, st_size=0, ...\x7d) = 0") 1).bind
        SyscallArgValue.as_struct).map List.length = some 2) ∧
    ((((arg_value (ascii "fstat(1, \x7bst_mode=S_IFIFO|0600, st_size=0, ...\x7d) = 0") 1).bind
          SyscallArgValue.as_struct).bind (lookup_assoc (ascii "st_mode"))).map
        SyscallArg.value).bind SyscallArgValue.as_flagset =
      some [.symbol (ascii "S_IFIFO"), .bits 384] ∧
    (((((arg_value (ascii "fstat(1, \x7bst_mode=S_IFIFO|0600, st_size=0, ...\x7d) = 0") 1).bind
          SyscallArgValue.as_struct).bind (lookup_assoc (ascii "st_size"))).map
        SyscallArg.value).bind SyscallArgValue.as_number = some 0) ∧
    (parse_syscall
        (ascii "fstat(1, \x7bst_mode=S_IFIFO|0600, st_size=0, ...\x7d) = 0")).error_details =
      none ∧
    (((arg_value (ascii "a(\x7bx=1, x=2\x7d) = 0") 0).bind
        SyscallArgValue.as_struct).map List.length = some 1) ∧
    ((((arg_value (ascii "a(\x7bx=1, x=2\x7d) = 0") 0).bind
          SyscallArgValue.as_struct).bind (lookup_assoc (ascii "x"))).map
        SyscallArg.value).bind SyscallArgValue.as_number = some 2 ∧
    (∀ k v m, lookup_assoc k (insert_assoc k v m) = some v) :=
  ⟨by decide, by decide, by decide, by decide, by decide, by decide,
   lookup_insert_assoc⟩

/-- C3: value disambiguation in `consume_arg` follows the first
non-whitespace, non-comma byte of the value.  An ASCII letter reads a symbol
and then the next byte decides: `|` yields a flag set, `=` a named argument
whose value is parsed recursively (the value of the recursive argument is kept and
labelled with the symbol), `(` a function call, anything else the bare symbol.
An ASCII digit or `-` reads a signed integer; an immediately following `*`
reads a second integer and yields a product, otherwise the number itself.
`"` yields a quoted string, `{` a struct, `[` an array. -/
theorem claim_c3 : ∀ (bs : List Nat) (f i i1 c : Nat),
    i1 = whitespace_comments bs (skip_char bs 44 (whitespace_comments bs i)) →
    read_byte bs i1 = some c →
    c ≠ 41 →
    (∀ s i2, is_ascii_alphabetic c = true → consume_symbol bs i1 = .ok (s, i2) →
      ((read_byte bs i2 = some 124 →
        (∃ e, consume_arg bs (f + 1) i = .error e) ∨
        ∃ flags j, consume_flagset bs i2 s = .ok (flags, j) ∧
          consume_arg bs (f + 1) i = .ok (some (.mk [] (.flagSet flags)), j)) ∧
      (read_byte bs i2 ≠ some 124 → read_byte bs i2 = some 61 →
        (∃ e, consume_arg bs (f + 1) i = .error e) ∨
        ∃ a j, consume_arg bs f (i2 + 1) = .ok (some a, j) ∧
          consume_arg bs (f + 1) i = .ok (some (.mk s a.value), j)) ∧
      (read_byte bs i2 ≠ some 124 → read_byte bs i2 ≠ some 61 →
          read_byte bs i2 = some 40 →
        (∃ e, consume_arg bs (f + 1) i = .error e) ∨
        ∃ args j, consume_arg_list bs f (i2 + 1) = .ok (args, j) ∧
          consume_arg bs (f + 1) i = .ok (some (.mk [] (.functionCall s args)), j + 1)) ∧
      (read_byte bs i2 ≠ some 124 → read_byte bs i2 ≠ some 61 →
          read_byte bs i2 ≠ some 40 →
        consume_arg bs (f + 1) i = .ok (some (.mk [] (.symbol s)), i2)))) ∧
    (∀ x i2, is_ascii_alphabetic c = false → (is_ascii_digit c || c = 45) = true →
      consume_i64 bs i1 = .ok (x, i2) →
      ((read_byte bs i2 = some 42 →
        ∃ y j, consume_i64 bs (i2 + 1) = .ok (y, j) ∧
          consume_arg bs (f + 1) i = .ok (some (.mk [] (.product x y)), j)) ∧
      (read_byte bs i2 ≠ some 42 →
        consume_arg bs (f + 1) i = .ok (some (.mk [] (.number x)), i2)))) ∧
    (is_ascii_alphabetic c = false → (is_ascii_digit c || c = 45) = false → c = 34 →
      (∃ e, consume_arg bs (f + 1) i = .error e) ∨
      ∃ t tr j, consume_quoted bs i1 = .ok (t, tr, j) ∧
        consume_arg bs (f + 1) i = .ok (some (.mk [] (.quoted t tr)), j)) ∧
    (is_ascii_alphabetic c = false → (is_ascii_digit c || c = 45) = false → c ≠ 34 →
        c = 123 →
      (∃ e, consume_arg bs (f + 1) i = .error e) ∨
      ∃ st j, consume_struct bs f i1 = .ok (st, j) ∧
        consume_arg bs (f + 1) i = .ok (some (.mk [] (.struct st)), j)) ∧
    (is_ascii_alphabetic c = false → (is_ascii_digit c || c = 45) = false → c ≠ 34 →
        c ≠ 123 → c = 91 →
      (∃ e, consume_arg bs (f + 1) i = .error e) ∨
      ∃ elems j, consume_array bs f i1 = .ok (elems, j) ∧
        consume_arg bs (f + 1) i = .ok (some (.mk [] (.array elems)), j)) := by
  intro bs f i i1 c hi1 hread hc41
  subst hi1
  have hbody :
      consume_arg bs (f + 1) i =
        (if c = 41 then
          .ok (none, whitespace_comments bs (skip_char bs 44 (whitespace_comments bs i)))
        else if is_ascii_alphabetic c then
          match consume_symbol bs
            (whitespace_comments bs (skip_char bs 44 (whitespace_comments bs i))) with
          | .error e => .error e
          | .ok (sym, i2) =>
            if read_byte bs i2 = some 124 then
              match consume_flagset bs i2 sym with
              | .error e => .error e
              | .ok (flags, j) => .ok (some (.mk [] (.flagSet flags)), j)
            else if read_byte bs i2 = some 61 then
              match consume_arg bs f (i2 + 1) with
              | .error e => .error e
              | .ok (none, _) => .error .expectedArgAfterEq
              | .ok (some a, j) => .ok (some (.mk sym a.value), j)
            else if read_byte bs i2 = some 40 then
              match consume_arg_list bs f (i2 + 1) with
              | .error e => .error e
              | .ok (args, j) =>
                match require bs 41 j with
                | .error e => .error e
                | .ok j2 => .ok (some (.mk [] (.functionCall sym args)), j2)
            else .ok (some (.mk [] (.symbol sym)), i2)
        else if is_ascii_digit c || c = 45 then
          match consume_i64 bs
            (whitespace_comments bs (skip_char bs 44 (whitespace_comments bs i))) with
          | .error e => .error e
          | .ok (x, i2) =>
            if read_byte bs i2 = some 42 then
              match consume_i64 bs (i2 + 1) with
              | .error e => .error e
              | .ok (y, j) => .ok (some (.mk [] (.product x y)), j)
            else .ok (some (.mk [] (.number x)), i2)
        else if c = 34 then
          match consume_quoted bs
            (whitespace_comments bs (skip_char bs 44 (whitespace_comments bs i))) with
          | .error e => .error e
          | .ok (t, tr, j) => .ok (some (.mk [] (.quoted t tr)), j)
        else if c = 123 then
          match consume_struct bs f
            (whitespace_comments bs (skip_char bs 44 (whitespace_comments bs i))) with
          | .error e => .error e
          | .ok (st, j) => .ok (some (.mk [] (.struct st)), j)
        else if c = 91 then
          match consume_array bs f
            (whitespace_comments bs (skip_char bs 44 (whitespace_comments bs i))) with
          | .error e => .error e
          | .ok (elems, j) => .ok (some (.mk [] (.array elems)), j)
        else .error .couldNotParseArg) := by
    simp only [consume_arg, hread]
  refine ⟨?_, ?_, ?_, ?_, ?_⟩
  · intro s i2 halpha hsym
    simp only [if_neg hc41, if_pos halpha, hsym] at hbody
    refine ⟨?_, ?_, ?_, ?_⟩
    · intro h124
      simp only [if_pos h124] at hbody
      rcases hfl : consume_flagset bs i2 s with e | ⟨flags, j⟩
      · simp only [hfl] at hbody
        exact Or.inl ⟨e, hbody⟩
      · simp only [hfl] at hbody
        exact Or.inr ⟨flags, j, rfl, hbody⟩
    · intro h124 h61
      simp only [if_neg h124, if_pos h61] at hbody
      rcases hrec : consume_arg bs f (i2 + 1) with e | ⟨a, j⟩
      · simp only [hrec] at hbody
        exact Or.inl ⟨e, hbody⟩
      · rcases a with _ | a
        · simp only [hrec] at hbody
          exact Or.inl ⟨.expectedArgAfterEq, hbody⟩
        · simp only [hrec] at hbody
          exact Or.inr ⟨a, j, rfl, hbody⟩
    · intro h124 h61 h40
      simp only [if_neg h124, if_neg h61, if_pos h40] at hbody
      rcases hlist : consume_arg_list bs f (i2 + 1) with e | ⟨args, j⟩
      · simp only [hlist] at hbody
        exact Or.inl ⟨e, hbody⟩
      · simp only [hlist] at hbody
        rcases hreq : require bs 41 j with e | j2
        · simp only [hreq] at hbody
          exact Or.inl ⟨e, hbody⟩
        · simp only [hreq] at hbody
          obtain ⟨hj2, hjlt⟩ := require_ok hreq
          simp only [hj2] at hbody
          exact Or.inr ⟨args, j, rfl, hbody⟩
    · intro h124 h61 h40
      simp only [if_neg h124, if_neg h61, if_neg h40] at hbody
      exact hbody
  · intro x i2 halpha hdig hnum
    have halpha2 : ¬(is_ascii_alphabetic c = true) := by simp [halpha]
    simp only [if_neg hc41, if_neg halpha2, if_pos hdig, hnum] at hbody
    constructor
    · intro h42
      simp only [if_pos h42] at hbody
      rcases h2 : consume_i64 bs (i2 + 1) with e | ⟨y, j⟩
      · obtain ⟨v, j0, hv⟩ := consume_i64_shape bs (i2 + 1)
        rw [hv] at h2
        exact Except.noConfusion h2
      · simp only [h2] at hbody
        exact ⟨y, j, rfl, hbody⟩
    · intro h42
      simp only [if_neg h42] at hbody
      exact hbody
  · intro halpha hdig h34
    have halpha2 : ¬(is_ascii_alphabetic c = true) := by simp [halpha]
    have hdig2 : ¬((is_ascii_digit c || c = 45) = true) := by simp [hdig]
    simp only [if_neg hc41, if_neg halpha2, if_neg hdig2, if_pos h34] at hbody
    rcases hq : consume_quoted bs
        (whitespace_comments bs (skip_char bs 44 (whitespace_comments bs i))) with
      e | ⟨t, tr, j⟩
    · simp only [hq] at hbody
      exact Or.inl ⟨e, hbody⟩
    · simp only [hq] at hbody
      exact Or.inr ⟨t, tr, j, rfl, hbody⟩
  · intro halpha hdig h34 h123
    have halpha2 : ¬(is_ascii_alphabetic c = true) := by simp [halpha]
    have hdig2 : ¬((is_ascii_digit c || c = 45) = true) := by simp [hdig]
    simp only [if_neg hc41, if_neg halpha2, if_neg hdig2, if_neg h34,
      if_pos h123] at hbody
    rcases hs : consume_struct bs f
        (whitespace_comments bs (skip_char bs 44 (whitespace_comments bs i))) with
      e | ⟨st, j⟩
    · simp only [hs] at hbody
      exact Or.inl ⟨e, hbody⟩
    · simp only [hs] at hbody
      exact Or.inr ⟨st, j, rfl, hbody⟩
  · intro halpha hdig h34 h123 h91
    have halpha2 : ¬(is_ascii_alphabetic c = true) := by simp [halpha]
    have hdig2 : ¬((is_ascii_digit c || c = 45) = true) := by simp [hdig]
    simp only [if_neg hc41, if_neg halpha2, if_neg hdig2, if_neg h34,
      if_neg h123, if_pos h91] at hbody
    rcases ha : consume_array bs f
        (whitespace_comments bs (skip_char bs 44 (whitespace_comments bs i))) with
      e | ⟨elems, j⟩
    · simp only [ha] at hbody
      exact Or.inl ⟨e, hbody⟩
    · simp only [ha] at hbody
      exact Or.inr ⟨elems, j, rfl, hbody⟩

/-- Witness for C3: the bare-symbol branch at `NULL)` and the number branch at
`42,`. -/
theorem claim_c3_witness :
    consume_arg (ascii "NULL)") 11 0 = .ok (some (.mk [] (.symbol (ascii "NULL"))), 4) ∧
    consume_arg (ascii "42,") 11 0 = .ok (some (.mk [] (.number 42)), 2) :=
  ⟨((claim_c3 (ascii "NULL)") 10 0 0 78 (by decide) (by decide) (by decide)).1
      (ascii "NULL") 4 (by decide) (by decide)).2.2.2 (by decide) (by decide) (by decide),
   ((claim_c3 (ascii "42,") 10 0 0 52 (by decide) (by decide) (by decide)).2.1
      42 2 (by decide) (by decide) (by decide)).2 (by decide)⟩
